import Mathlib

/-!
# Order management with inventory reconciliation — verification

Shallow embedding of the order-placement / order-editing core of the
business-administration dashboard (src/lib/supabase.ts together with the
order pages `OrderNew.tsx` / `OrderEdit.tsx`), and proofs of the testable
properties stated in the specification.

Modelling conventions:
* Entity ids are strings in the source; only their UUID-format validity and
  identity matter, so an id is `Uid.wellFormed n` (passes `isValidUUID`) or
  `Uid.malformed n` (fails it).  `uuidv4` / `crypto.randomUUID` draw fresh
  well-formed ids from a counter threaded through the database state.
* Money (`price`, `total`) is modelled as `Rat`, quantities and stock as
  `Int` (stock is signed because the point of several claims is whether it
  can become negative).
* JavaScript `x || d` fallbacks on numbers/strings are modelled by
  `jsOrInt` / `jsOrRat` / `jsOrStr` (`0`, `""` are falsy).
* The remote store is a `Db` record of rows; each fallible remote write is
  driven by an explicit `Faults` oracle so partial-failure behaviour of the
  source can be exercised.  Reads fail only by returning no row
  (`.single()` errors), which the source maps to its error paths.
-/

/-- An entity id: either in valid UUID format or not. -/
inductive Uid where
  | wellFormed : Nat → Uid
  | malformed : Nat → Uid
deriving DecidableEq

/-- `isValidUUID` from src/lib/supabase.ts: tests the UUID v4 regex. -/
def isValidUUID : Uid → Bool
  | .wellFormed _ => true
  | .malformed _ => false

/-- JS `x || d` for numbers modelled as `Int` (`0` is falsy). -/
def jsOrInt (x d : Int) : Int := if x = 0 then d else x

/-- JS `x || d` for numbers modelled as `Rat` (`0` is falsy). -/
def jsOrRat (x d : Rat) : Rat := if x = 0 then d else x

/-- JS `x || d` for strings (`""` is falsy). -/
def jsOrStr (x d : String) : String := if x = "" then d else x

/-- Row of the `customers` table (audit timestamp omitted: no claim uses it). -/
structure CustomerRow where
  id : Uid
  name : String
  email : String
  phone : String
  address : String
deriving DecidableEq

/-- Row of the `products` table (base columns; the category detail tables do
not participate in any order/stock logic and are omitted). -/
structure ProductRow where
  id : Uid
  name : String
  description : String
  price : Rat
  stock : Int
  status : String
deriving DecidableEq

/-- Row of the `orders` table. -/
structure OrderRow where
  id : Uid
  customerId : Uid
  customerName : String
  employeeId : Uid
  employeeName : String
  total : Rat
  createdAt : Nat
deriving DecidableEq

/-- Row of the `order_items` table (`id` is the primary key and is always
populated by the writers, so it is not optional). -/
structure ItemRow where
  id : Uid
  orderId : Uid
  productId : Uid
  productName : String
  quantity : Int
  price : Rat
deriving DecidableEq

/-- The remote store plus the fresh-id counter (`gen`) used by
`uuidv4`/`crypto.randomUUID` and the server clock used for `created_at`. -/
structure Db where
  customers : List CustomerRow
  products : List ProductRow
  orders : List OrderRow
  orderItems : List ItemRow
  gen : Nat
  time : Nat
deriving DecidableEq

/-- `uuidv4()` : produce a fresh well-formed id. -/
def uuidv4 (db : Db) : Uid × Db :=
  (Uid.wellFormed db.gen, { db with gen := db.gen + 1 })

/-- `ensureUUID` from src/lib/supabase.ts: a valid id passes through, an
invalid one is silently replaced by a freshly generated UUID. -/
def ensureUUID (i : Uid) (db : Db) : Uid × Db :=
  if isValidUUID i then (i, db) else uuidv4 db

/-- Clientside order line item (camelCase object used by the pages and the
lib functions). -/
structure OrderItem where
  id : Uid
  productId : Uid
  productName : String
  quantity : Int
  price : Rat
deriving DecidableEq

/-- Clientside order object returned by the lib functions. -/
structure Order where
  id : Uid
  customerId : Uid
  customerName : String
  employeeId : Uid
  employeeName : String
  items : List OrderItem
  total : Rat
  createdAt : Nat
deriving DecidableEq

/-- Argument of `createOrder` (`Omit<Order, "id" | "createdAt">`). -/
structure NewOrder where
  customerId : Uid
  customerName : String
  employeeId : Uid
  employeeName : String
  items : List OrderItem
  total : Rat
deriving DecidableEq

/-- Errors thrown by `createOrder`/`updateOrder` (the source throws `Error`
objects with interpolated messages; each constructor carries the data the
corresponding message interpolates). -/
inductive OrderErr where
  /-- "Failed to check stock for product …" -/
  | stockCheckFailed (productId : Uid)
  /-- "Insufficient stock for product …. Available: …, Requested: …" -/
  | insufficientStock (productName : String) (available : Int) (requested : Int)
  /-- "Failed to update stock for product …" -/
  | stockUpdateFailed (productName : String)
  /-- "Failed to get stock for product …" -/
  | stockGetFailed (productId : Uid)
  /-- "Failed to update stock for removed product …" -/
  | removedStockUpdateFailed (productId : Uid)
  /-- "Insufficient stock for product …. Available: …, Additional requested: …" -/
  | insufficientStockAdd (productName : String) (available : Int) (additional : Int)
  /-- "Failed to update order items" -/
  | itemsWriteFailed
deriving DecidableEq

/-- Fault oracle for the fallible remote writes of one call: whether the
order-header write fails, whether the order-items delete/insert fails, and
which (if any) product-stock write of the call fails (counted from 0 in
execution order). -/
structure Faults where
  headerWrite : Bool
  itemsDelete : Bool
  itemsWrite : Bool
  stockWriteAt : Option Nat
deriving DecidableEq

/-- The all-writes-succeed oracle. -/
def noFaults : Faults := ⟨false, false, false, none⟩

/-- Does the `k`-th stock write of the call fail? -/
def stockFailsAt (F : Faults) (k : Nat) : Bool := F.stockWriteAt == some k

/-- `select("stock").eq("id", pid).single()` over `products`. -/
def findProduct (db : Db) (pid : Uid) : Option ProductRow :=
  db.products.find? (fun r => r.id == pid)

/-- `update({ stock: v }).eq("id", pid)` over `products`. -/
def setStock (pid : Uid) (v : Int) (db : Db) : Db :=
  { db with products := db.products.map (fun r => if r.id = pid then { r with stock := v } else r) }

/-- Modelled from the spec: the `decrease_stock` RPC invoked by
`createOrder` is a database function whose body is not in the repository.
§4.3 of the spec describes the Stock Reconciler as "Reads current stock,
computes `newStock = currentStock - delta` …, and writes it back" with no
negativity guard (the guarded conditional decrement is described in §5 only
as a recommended deviation).  A missing product id updates no row, like a
SQL `UPDATE` matching nothing. -/
def decreaseStock (pid : Uid) (qty : Int) (db : Db) : Db :=
  match findProduct db pid with
  | none => db
  | some p => setStock pid (p.stock - qty) db

/-- The stock validation loop at the top of `createOrder`: for each item
fetch the product's stock; a missing product is a failed check; a stock
below the full requested quantity is an insufficiency.  Read-only. -/
def validateItems (db : Db) : List OrderItem → Option OrderErr
  | [] => none
  | item :: rest =>
    match findProduct db item.productId with
    | none => some (.stockCheckFailed item.productId)
    | some p =>
      if p.stock < item.quantity then
        some (.insufficientStock item.productName (jsOrInt p.stock 0) item.quantity)
      else validateItems db rest

/-- Mapping of fetched `order_items` rows to camelCase items as done by
`fetchOrderById` (and by `createOrder`'s final re-read, which uses the same
projection): `product_id` goes through `ensureUUID` (threading the id
generator), name/quantity/price get the `||` fallbacks. -/
def readItems : List ItemRow → Db → List OrderItem × Db
  | [], db => ([], db)
  | r :: rs, db =>
    let s1 := ensureUUID r.productId db
    let item : OrderItem :=
      ⟨r.id, s1.1, jsOrStr r.productName "Unknown Product", jsOrInt r.quantity 1, jsOrRat r.price 0⟩
    let s2 := readItems rs s1.2
    (item :: s2.1, s2.2)

/-- Assembling the camelCase `Order` from a fetched header row and its
`order_items` rows (shared by `fetchOrderById` and `createOrder`'s final
re-read). -/
def readOrderRow (row : OrderRow) (db : Db) : Order × Db :=
  let s1 := ensureUUID row.id db
  let s2 := ensureUUID row.customerId s1.2
  let s3 := ensureUUID row.employeeId s2.2
  let s4 := readItems (s3.2.orderItems.filter (fun r => r.orderId == row.id)) s3.2
  (⟨s1.1, s2.1, jsOrStr row.customerName "", s3.1, jsOrStr row.employeeName "",
    s4.1, jsOrRat row.total 0, row.createdAt⟩, s4.2)

/-- `fetchOrderById` from src/lib/supabase.ts.  The source first runs a
head-count query for existence and then fetches the row with its items;
both queries filter on the same id, so they are collapsed into one lookup.
A missing row (count 0, or no data) returns `null`. -/
def fetchOrderById (id : Uid) (db : Db) : Option Order × Db :=
  let s1 := ensureUUID id db
  match s1.2.orders.find? (fun r => r.id == s1.1) with
  | none => (none, s1.2)
  | some row =>
    let s2 := readOrderRow row s1.2
    (some s2.1, s2.2)

/-- The `order_items` rows built (and inserted) by `createOrder`/
`updateOrder` for a new item list: `product_id` goes through `ensureUUID`,
quantity/price get the `|| 1` / `|| 0` fallbacks. -/
def buildItemRows (orderId : Uid) : List OrderItem → Db → List ItemRow × Db
  | [], db => ([], db)
  | item :: rest, db =>
    let s1 := ensureUUID item.productId db
    let row : ItemRow :=
      ⟨item.id, orderId, s1.1, item.productName, jsOrInt item.quantity 1, jsOrRat item.price 0⟩
    let s2 := buildItemRows orderId rest s1.2
    (row :: s2.1, s2.2)

/-- The compensating `delete().eq("id", newId)` on `orders` (header only:
the source does not delete the item rows here). -/
def deleteOrderHeader (oid : Uid) (db : Db) : Db :=
  { db with orders := db.orders.filter (fun r => !(r.id == oid)) }

/-- The stock-decrement loop of `createOrder`: one `decrease_stock` RPC per
item (full requested quantity); on a failed write the loop stops with the
error and the state reached so far. -/
def createStockLoop (F : Faults) : List OrderItem → Nat → Db → Option OrderErr × Db
  | [], _, db => (none, db)
  | item :: rest, k, db =>
    if stockFailsAt F k then (some (.stockUpdateFailed item.productName), db)
    else createStockLoop F rest (k + 1) (decreaseStock item.productId item.quantity db)

/-- The final re-read of `createOrder` (fetch the complete order with its
items and convert back to camelCase); a fetch failure returns `null`. -/
def fetchComplete (oid : Uid) (db : Db) : Except OrderErr (Option Order) × Db :=
  match db.orders.find? (fun r => r.id == oid) with
  | none => (.ok none, db)
  | some row =>
    let s := readOrderRow row db
    (.ok (some s.1), s.2)

/-- `createOrder` from src/lib/supabase.ts: validate stock for every item,
insert the header, insert the item rows (deleting the header again if that
fails), run `decrease_stock` for every item (deleting the header and
throwing if one fails), and re-read the complete order.  `Except.error`
models a thrown error, `Except.ok none` a `return null`. -/
def createOrder (F : Faults) (ord : NewOrder) (db : Db) : Except OrderErr (Option Order) × Db :=
  match validateItems db ord.items with
  | some e => (.error e, db)
  | none =>
    let s1 := uuidv4 db
    let newId := s1.1
    let s2 := ensureUUID ord.customerId s1.2
    let s3 := ensureUUID ord.employeeId s2.2
    let header : OrderRow :=
      ⟨newId, s2.1, ord.customerName, s3.1, ord.employeeName, jsOrRat ord.total 0, s3.2.time⟩
    if F.headerWrite then (.ok none, s3.2)
    else
      let db4 : Db := { s3.2 with orders := s3.2.orders ++ [header] }
      if ord.items.isEmpty then
        -- `if (order.items && order.items.length > 0)` guard: with no items
        -- the items / stock block is skipped entirely.
        fetchComplete newId db4
      else
        let s5 := buildItemRows newId ord.items db4
        if F.itemsWrite then (.ok none, deleteOrderHeader newId s5.2)
        else
          let db6 : Db := { s5.2 with orderItems := s5.2.orderItems ++ s5.1 }
          let s7 := createStockLoop F ord.items 0 db6
          match s7.1 with
          | some e => (.error e, deleteOrderHeader newId s7.2)
          | none => fetchComplete newId s7.2

/-- Argument of `updateOrder` (`Partial<Order>`; absent fields are `none`). -/
structure OrderPatch where
  customerId : Option Uid
  customerName : Option String
  employeeId : Option Uid
  employeeName : Option String
  total : Option Rat
  items : Option (List OrderItem)
deriving DecidableEq

/-- Last-wins lookup, as `new Map(pairs).get(k)` behaves when `pairs` has
duplicate keys. -/
def lookupLast {α : Type} (l : List (Uid × α)) (k : Uid) : Option α :=
  (l.reverse.find? (fun p => p.1 == k)).map Prod.snd

/-- Key list in first-occurrence order, as a JS `Map` iterates. -/
def dedupKeysFirst : List Uid → List Uid
  | [] => []
  | k :: ks => k :: (dedupKeysFirst ks).filter (fun x => !(x == k))

/-- `map.entries()` of `new Map(pairs)`: first-occurrence key order, each
key with its last-set value. -/
def mapEntries {α : Type} (l : List (Uid × α)) : List (Uid × α) :=
  (dedupKeysFirst (l.map Prod.fst)).filterMap (fun k => (lookupLast l k).map (fun v => (k, v)))

/-- Application of the `cleanedData` header patch in `updateOrder` (fields
left `none` stay unchanged). -/
def applyHeaderPatch (cid : Option Uid) (cname : Option String) (eid : Option Uid)
    (ename : Option String) (tot : Option Rat) (r : OrderRow) : OrderRow :=
  { r with
    customerId := cid.getD r.customerId
    customerName := cname.getD r.customerName
    employeeId := eid.getD r.employeeId
    employeeName := ename.getD r.employeeName
    total := tot.getD r.total }

/-- The removed-items loop of `updateOrder`: for each entry of the original
items map whose product is absent from the new map, read the product's
stock and write back `stock + originalQuantity`.  The `Nat` is the running
index of fallible stock writes. -/
def removedLoop (F : Faults) (newKeys : List Uid) :
    List (Uid × Int × Uid) → Nat → Db → Option OrderErr × Db × Nat
  | [], k, db => (none, db, k)
  | (pid, qty, _) :: rest, k, db =>
    if newKeys.contains pid then removedLoop F newKeys rest k db
    else
      match findProduct db pid with
      | none => (some (.stockGetFailed pid), db, k)
      | some p =>
        if stockFailsAt F k then (some (.removedStockUpdateFailed pid), db, k)
        else removedLoop F newKeys rest (k + 1) (setStock pid (jsOrInt p.stock 0 + qty) db)

/-- The new/modified-items loop of `updateOrder`: per item the quantity
delta against the original map; a positive delta is first checked against
current stock, any non-zero delta is then applied by a read-then-write
(`- |diff|` for increases, `+ |diff|` for decreases). -/
def itemLoop (F : Faults) (origMap : List (Uid × Int × Uid)) :
    List OrderItem → Nat → Db → Option OrderErr × Db × Nat
  | [], k, db => (none, db, k)
  | item :: rest, k, db =>
    let originalQuantity : Int := ((lookupLast origMap item.productId).map Prod.fst).getD 0
    let newQuantity := jsOrInt item.quantity 0
    let diff := newQuantity - originalQuantity
    if 0 < diff then
      match findProduct db item.productId with
      | none => (some (.stockCheckFailed item.productId), db, k)
      | some p =>
        if p.stock < diff then
          (some (.insufficientStockAdd item.productName (jsOrInt p.stock 0) diff), db, k)
        else
          -- `quantityDiff !== 0` block: re-read the stock and write
          -- `currentStock - Math.abs(quantityDiff)`.
          match findProduct db item.productId with
          | none => (some (.stockGetFailed item.productId), db, k)
          | some p2 =>
            if stockFailsAt F k then (some (.stockUpdateFailed item.productName), db, k)
            else
              itemLoop F origMap rest (k + 1)
                (setStock item.productId (jsOrInt p2.stock 0 - (diff.natAbs : Int)) db)
    else if diff = 0 then itemLoop F origMap rest k db
    else
      -- negative delta: `currentStock + Math.abs(quantityDiff)`.
      match findProduct db item.productId with
      | none => (some (.stockGetFailed item.productId), db, k)
      | some p2 =>
        if stockFailsAt F k then (some (.stockUpdateFailed item.productName), db, k)
        else
          itemLoop F origMap rest (k + 1)
            (setStock item.productId (jsOrInt p2.stock 0 + (diff.natAbs : Int)) db)

/-- Plain row-to-item projection used for `updateOrder`'s returned items
(the source copies the inserted rows back without fallbacks). -/
def rowToItemPlain (r : ItemRow) : OrderItem :=
  ⟨r.id, r.productId, r.productName, r.quantity, r.price⟩

/-- The final camelCase result of `updateOrder`: built from the updated
header row and the freshly inserted items (not re-fetched). -/
def buildUpdateResult (orderData : OrderRow) (items : List OrderItem) (db : Db) : Order × Db :=
  let s1 := ensureUUID orderData.id db
  let s2 := ensureUUID orderData.customerId s1.2
  let s3 := ensureUUID orderData.employeeId s2.2
  (⟨s1.1, s2.1, jsOrStr orderData.customerName "", s3.1, jsOrStr orderData.employeeName "",
    items, jsOrRat orderData.total 0, orderData.createdAt⟩, s3.2)

/-- The `ensureUUID`-or-skip applied to an optional patched id field
(`order.customerId ? ensureUUID(order.customerId) : undefined`). -/
def ensureOptUUID (i : Option Uid) (db : Db) : Option Uid × Db :=
  match i with
  | none => (none, db)
  | some c =>
    let s := ensureUUID c db
    (some s.1, s.2)

/-- `updateOrder` from src/lib/supabase.ts.  Note the source's order of
operations: the header row is updated with the provided scalar fields
*before* any stock handling; only then are the per-product deltas computed,
checked and applied, the old item rows deleted (result unchecked) and the
new ones inserted.  `Except.error` models a thrown error, `Except.ok none`
a `return null`. -/
def updateOrder (F : Faults) (id : Uid) (patch : OrderPatch) (db : Db) :
    Except OrderErr (Option Order) × Db :=
  let s1 := ensureUUID id db
  let uuid := s1.1
  match s1.2.orders.find? (fun r => r.id == uuid) with
  | none => (.ok none, s1.2)
  | some _original =>
    -- items of the original order, captured by the first fetch
    let origRows := s1.2.orderItems.filter (fun r => r.orderId == uuid)
    -- cleanedData: `customerId ? ensureUUID(customerId) : undefined`,
    -- `customerName || undefined`, `typeof total === "number" ? total : undefined`
    let s2 := ensureOptUUID patch.customerId s1.2
    let s3 := ensureOptUUID patch.employeeId s2.2
    let cname := patch.customerName.bind (fun s => if s = "" then none else some s)
    let ename := patch.employeeName.bind (fun s => if s = "" then none else some s)
    if F.headerWrite then (.ok none, s3.2)
    else
      let db4 : Db := { s3.2 with orders := s3.2.orders.map (fun r =>
        if r.id = uuid then applyHeaderPatch s2.1 cname s3.1 ename patch.total r else r) }
      match db4.orders.find? (fun r => r.id == uuid) with
      | none => (.ok none, db4)
      | some orderData =>
        match patch.items with
        | none =>
          -- no replacement item list: `let items = []` is returned as-is
          let s5 := buildUpdateResult orderData [] db4
          (.ok (some s5.1), s5.2)
        | some newList =>
          let origMap : List (Uid × Int × Uid) :=
            origRows.map (fun r => (r.productId, (jsOrInt r.quantity 0, r.id)))
          let newKeys : List Uid := newList.map (fun i => i.productId)
          let s6 := removedLoop F newKeys (mapEntries origMap) 0 db4
          match s6.1 with
          | some e => (.error e, s6.2.1)
          | none =>
            let s7 := itemLoop F origMap newList s6.2.2 s6.2.1
            match s7.1 with
            | some e => (.error e, s7.2.1)
            | none =>
              -- delete all existing items (result not checked by the source)
              let db8 : Db :=
                if F.itemsDelete then s7.2.1
                else { s7.2.1 with
                  orderItems := s7.2.1.orderItems.filter (fun r => !(r.orderId == uuid)) }
              let s9 := buildItemRows uuid newList db8
              if F.itemsWrite then (.error .itemsWriteFailed, s9.2)
              else
                let db10 : Db := { s9.2 with orderItems := s9.2.orderItems ++ s9.1 }
                let s11 := buildUpdateResult orderData (s9.1.map rowToItemPlain) db10
                (.ok (some s11.1), s11.2)

/-- `deleteOrder` from src/lib/supabase.ts: delete the item rows first,
then the header; either delete failing reports failure (`success: false`).
Deletes matching no row are successes, as in SQL. -/
def deleteOrder (F : Faults) (id : Uid) (db : Db) : Bool × Db :=
  let s1 := ensureUUID id db
  let uuid := s1.1
  if F.itemsDelete then (false, s1.2)
  else
    let db2 : Db := { s1.2 with orderItems := s1.2.orderItems.filter (fun r => !(r.orderId == uuid)) }
    if F.headerWrite then (false, db2)
    else (true, { db2 with orders := db2.orders.filter (fun r => !(r.id == uuid)) })

/-- Argument of `updateCustomer` (`Partial<Customer>`; present fields are
written as given, including empty strings). -/
structure CustomerPatch where
  name : Option String
  email : Option String
  phone : Option String
  address : Option String
deriving DecidableEq

/-- Clientside customer object (audit timestamp omitted). -/
structure Customer where
  id : Uid
  name : String
  email : String
  phone : String
  address : String
deriving DecidableEq

/-- `updateCustomer` from src/lib/supabase.ts: `ensureUUID` the id, update
the row (`.single()` errors into `null` when no row matches), return the
updated customer with `id` forced to the ensured uuid. -/
def updateCustomer (id : Uid) (patch : CustomerPatch) (db : Db) : Option Customer × Db :=
  let s1 := ensureUUID id db
  let uuid := s1.1
  match s1.2.customers.find? (fun r => r.id == uuid) with
  | none => (none, s1.2)
  | some _ =>
    let db : Db := { s1.2 with customers := s1.2.customers.map (fun r =>
      if r.id = uuid then
        { r with
          name := patch.name.getD r.name
          email := patch.email.getD r.email
          phone := patch.phone.getD r.phone
          address := patch.address.getD r.address }
      else r) }
    match db.customers.find? (fun r => r.id == uuid) with
    | none => (none, db)
    | some r => (some ⟨uuid, r.name, r.email, r.phone, r.address⟩, db)

/-- Argument of `updateProduct` (`Partial<Product>`, base columns; the
category-specific detail fields do not interact with id or stock handling
and are omitted). -/
structure ProductPatch where
  name : Option String
  description : Option String
  price : Option Rat
  stock : Option Int
  status : Option String
deriving DecidableEq

/-- `updateProduct` from src/lib/supabase.ts, base-table part: `ensureUUID`
the id, fetch the current row (`.single()` errors into `null` when absent),
update the provided base columns, re-fetch and return the row.  The
category detail-table writes are omitted (they touch neither ids nor
stock). -/
def updateProduct (id : Uid) (patch : ProductPatch) (db : Db) : Option ProductRow × Db :=
  let s1 := ensureUUID id db
  let uuid := s1.1
  match s1.2.products.find? (fun r => r.id == uuid) with
  | none => (none, s1.2)
  | some _ =>
    let db : Db := { s1.2 with products := s1.2.products.map (fun r =>
      if r.id = uuid then
        { r with
          name := patch.name.getD r.name
          description := patch.description.getD r.description
          price := patch.price.getD r.price
          stock := patch.stock.getD r.stock
          status := patch.status.getD r.status }
      else r) }
    match db.products.find? (fun r => r.id == uuid) with
    | none => (none, db)
    | some r => (some r, db)

/-- Clientside employee object (only the fields the order pages read). -/
structure Employee where
  id : Uid
  name : String
deriving DecidableEq

/-- Form line item of the order pages; `productId = none` models the empty
string of an unselected product row. -/
structure FormItem where
  id : Uid
  productId : Option Uid
  productName : String
  quantity : Int
  price : Rat
deriving DecidableEq

/-- `calculateTotal` from OrderNew.tsx / OrderEdit.tsx: sum of
`(item.price || 0) * (item.quantity || 1)` over the items with a selected
product. -/
def calculateTotal (items : List FormItem) : Rat :=
  items.foldl (fun sum item =>
    match item.productId with
    | none => sum
    | some _ => sum + jsOrRat item.price 0 * ((jsOrInt item.quantity 1 : Int) : Rat)) 0

/-- Outcome of a form submission: rejected by the page's validation before
any service call, or the result of the service call. -/
inductive SubmitOutcome where
  | rejected (reason : String)
  | serviceResult (r : Except OrderErr (Option Order))

/-- The `items.map(...)` projection both pages apply before calling the
service (`productName || ""`, `quantity || 1`, `price || 0`).  The
`getD` default is unreachable: validation has ensured every `productId`
is selected. -/
def submitItem (i : FormItem) : OrderItem :=
  ⟨i.id, i.productId.getD (Uid.malformed 0), jsOrStr i.productName "",
    jsOrInt i.quantity 1, jsOrRat i.price 0⟩

/-- `handleSubmit` from OrderNew.tsx (the pure submission logic): validate
customer/employee selection and the item list, compute the total, resolve
the customer and employee, and call `createOrder`. -/
def handleSubmit (F : Faults) (customers : List Customer) (employees : List Employee)
    (customerId employeeId : Option Uid) (items : List FormItem) (db : Db) :
    SubmitOutcome × Db :=
  if customerId.isNone then (.rejected "Customer required", db)
  else if employeeId.isNone then (.rejected "Employee required", db)
  else if items.isEmpty || items.any (fun i => i.productId.isNone) then
    (.rejected "Products required", db)
  else
    match customerId, employeeId with
    | some cid, some eid =>
      let total := calculateTotal items
      match customers.find? (fun c => c.id == cid), employees.find? (fun e => e.id == eid) with
      | some customer, some employee =>
        let ord : NewOrder :=
          ⟨cid, customer.name, eid, employee.name, items.map submitItem, total⟩
        let s := createOrder F ord db
        (.serviceResult s.1, s.2)
      | _, _ => (.rejected "Customer or employee not found", db)
    | _, _ => (.rejected "unreachable", db)

/-- `confirmUpdate` from OrderEdit.tsx (the pure submission logic): the
same validations, then `updateOrder` with every scalar field and the full
replacement item list supplied. -/
def confirmUpdate (F : Faults) (customers : List Customer) (employees : List Employee)
    (orderId : Uid) (customerId employeeId : Option Uid) (items : List FormItem) (db : Db) :
    SubmitOutcome × Db :=
  if customerId.isNone then (.rejected "Customer required", db)
  else if employeeId.isNone then (.rejected "Employee required", db)
  else if items.isEmpty || items.any (fun i => i.productId.isNone) then
    (.rejected "Products required", db)
  else
    match customerId, employeeId with
    | some cid, some eid =>
      match customers.find? (fun c => c.id == cid), employees.find? (fun e => e.id == eid) with
      | some customer, some employee =>
        let total := calculateTotal items
        let patch : OrderPatch :=
          ⟨some cid, some customer.name, some eid, some employee.name,
            some total, some (items.map submitItem)⟩
        let s := updateOrder F orderId patch db
        (.serviceResult s.1, s.2)
      | none, _ => (.rejected "Selected customer not found", db)
      | _, none => (.rejected "Selected employee not found", db)
    | _, _ => (.rejected "unreachable", db)

/-- `confirmDelete` from OrderEdit.tsx: remove the chosen line item from
the form state only when more than one item remains; otherwise the state
is left unchanged (the page shows the "Cannot remove item" toast). -/
def confirmDelete (itemToDelete : Option Uid) (items : List FormItem) : List FormItem :=
  match itemToDelete with
  | some target => if 1 < items.length then items.filter (fun i => !(i.id == target)) else items
  | none => items

/-- `removeItem` from OrderNew.tsx: same last-item guard on the create
form. -/
def removeItem (target : Uid) (items : List FormItem) : List FormItem :=
  if 1 < items.length then items.filter (fun i => !(i.id == target)) else items

/-! ## Basic lemmas about the JS fallbacks and id generation -/

theorem jsOrInt_zero (x : Int) : jsOrInt x 0 = x := by
  unfold jsOrInt; split <;> simp_all

theorem jsOrRat_zero (x : Rat) : jsOrRat x 0 = x := by
  unfold jsOrRat; split <;> simp_all

theorem jsOrInt_one_idem (x : Int) : jsOrInt (jsOrInt x 1) 1 = jsOrInt x 1 := by
  unfold jsOrInt; split <;> simp_all

theorem ensureUUID_valid (i : Uid) (db : Db) (h : isValidUUID i = true) :
    ensureUUID i db = (i, db) := by
  unfold ensureUUID; rw [h]; rfl

theorem ensureUUID_invalid (i : Uid) (db : Db) (h : isValidUUID i = false) :
    ensureUUID i db = (Uid.wellFormed db.gen, { db with gen := db.gen + 1 }) := by
  unfold ensureUUID; rw [h]; rfl

/-! ## Lemmas about product lookups and stock writes -/

theorem find?_map_of_pred {α : Type} (f : α → α) (p : α → Bool)
    (hf : ∀ a, p (f a) = p a) (l : List α) :
    (l.map f).find? p = (l.find? p).map f := by
  induction l with
  | nil => rfl
  | cons a l ih =>
    by_cases h : p a = true
    · rw [List.map_cons, List.find?_cons_of_pos _ (by rw [hf]; exact h),
        List.find?_cons_of_pos _ h]
      rfl
    · rw [List.map_cons, List.find?_cons_of_neg _ (by rw [hf]; exact h),
        List.find?_cons_of_neg _ h, ih]

theorem findProduct_id {db : Db} {q : Uid} {r : ProductRow}
    (h : findProduct db q = some r) : r.id = q := by
  have := List.find?_some h
  exact beq_iff_eq.mp this

theorem findProduct_setStock (pid : Uid) (v : Int) (db : Db) (q : Uid) :
    findProduct (setStock pid v db) q
      = (findProduct db q).map (fun r => if r.id = pid then { r with stock := v } else r) := by
  unfold findProduct setStock
  exact find?_map_of_pred _ _ (fun a => by by_cases h : a.id = pid <;> simp [h]) _

theorem findProduct_setStock_self (pid : Uid) (v : Int) (db : Db) :
    findProduct (setStock pid v db) pid
      = (findProduct db pid).map (fun r => { r with stock := v }) := by
  rw [findProduct_setStock]
  cases h : findProduct db pid with
  | none => rfl
  | some r => simp [findProduct_id h]

theorem findProduct_setStock_ne (pid : Uid) (v : Int) (db : Db) (q : Uid) (h : q ≠ pid) :
    findProduct (setStock pid v db) q = findProduct db q := by
  rw [findProduct_setStock]
  cases hf : findProduct db q with
  | none => rfl
  | some r => simp [findProduct_id hf, h]

/-! ## Which parts of the state each operation can touch -/

/-- Everything except the products table. -/
def Db.nonProducts (db : Db) : List CustomerRow × List OrderRow × List ItemRow × Nat × Nat :=
  (db.customers, db.orders, db.orderItems, db.gen, db.time)

/-- Everything except the id generator. -/
def Db.tables (db : Db) : List CustomerRow × List ProductRow × List OrderRow × List ItemRow × Nat :=
  (db.customers, db.products, db.orders, db.orderItems, db.time)

theorem setStock_nonProducts (pid : Uid) (v : Int) (db : Db) :
    (setStock pid v db).nonProducts = db.nonProducts := rfl

theorem decreaseStock_nonProducts (pid : Uid) (qty : Int) (db : Db) :
    (decreaseStock pid qty db).nonProducts = db.nonProducts := by
  unfold decreaseStock; split <;> rfl

theorem createStockLoop_nonProducts (F : Faults) (l : List OrderItem) :
    ∀ k db, ((createStockLoop F l k db).2).nonProducts = db.nonProducts := by
  induction l with
  | nil => intro k db; rfl
  | cons a l ih =>
    intro k db
    unfold createStockLoop
    split
    · rfl
    · rw [ih, decreaseStock_nonProducts]

theorem ensureUUID_tables (i : Uid) (db : Db) : ((ensureUUID i db).2).tables = db.tables := by
  unfold ensureUUID uuidv4; split <;> rfl

theorem readItems_tables (l : List ItemRow) : ∀ db, ((readItems l db).2).tables = db.tables := by
  induction l with
  | nil => intro db; rfl
  | cons r rs ih =>
    intro db
    unfold readItems
    rw [ih, ensureUUID_tables]

theorem readOrderRow_tables (row : OrderRow) (db : Db) :
    ((readOrderRow row db).2).tables = db.tables := by
  unfold readOrderRow
  rw [readItems_tables, ensureUUID_tables, ensureUUID_tables, ensureUUID_tables]

theorem buildItemRows_tables (oid : Uid) (l : List OrderItem) :
    ∀ db, ((buildItemRows oid l db).2).tables = db.tables := by
  induction l with
  | nil => intro db; rfl
  | cons i rest ih =>
    intro db
    unfold buildItemRows
    rw [ih, ensureUUID_tables]

theorem removedLoop_nonProducts (F : Faults) (nk : List Uid) (entries : List (Uid × Int × Uid)) :
    ∀ k db, ((removedLoop F nk entries k db).2.1).nonProducts = db.nonProducts := by
  induction entries with
  | nil => intro k db; rfl
  | cons e rest ih =>
    intro k db
    obtain ⟨pid, qty, iid⟩ := e
    unfold removedLoop
    try dsimp only
    repeat' split
    all_goals first
      | rfl
      | exact ih _ _
      | rw [ih, setStock_nonProducts]

theorem itemLoop_nonProducts (F : Faults) (m : List (Uid × Int × Uid)) (l : List OrderItem) :
    ∀ k db, ((itemLoop F m l k db).2.1).nonProducts = db.nonProducts := by
  induction l with
  | nil => intro k db; rfl
  | cons i rest ih =>
    intro k db
    unfold itemLoop
    dsimp only
    repeat' split
    all_goals first
      | rfl
      | exact ih _ _
      | rw [ih, setStock_nonProducts]

/-! ## Freshness of generated ids -/

/-- The id generator never collides with ids already stored: every id the
counter can still produce is unused as a customer/product/order id and as
an item's order reference. -/
def GenFresh (db : Db) : Prop :=
  ∀ n, db.gen ≤ n →
    (∀ r ∈ db.customers, r.id ≠ Uid.wellFormed n) ∧
    (∀ r ∈ db.products, r.id ≠ Uid.wellFormed n) ∧
    (∀ r ∈ db.orders, r.id ≠ Uid.wellFormed n) ∧
    (∀ r ∈ db.orderItems, r.orderId ≠ Uid.wellFormed n)

theorem find?_eq_none_of_forall_ne {α : Type} (l : List α) (f : α → Uid) (u : Uid)
    (h : ∀ a ∈ l, f a ≠ u) : l.find? (fun a => f a == u) = none := by
  apply List.find?_eq_none.mpr
  intro a ha
  simpa using h a ha

theorem filter_ne_of_forall_ne {α : Type} (l : List α) (f : α → Uid) (u : Uid)
    (h : ∀ a ∈ l, f a ≠ u) : l.filter (fun a => !(f a == u)) = l := by
  apply List.filter_eq_self.mpr
  intro a ha
  simpa using h a ha

/-! ## JS `Map` semantics lemmas (duplicate-free case) -/

theorem lookupLast_cons_ne {α : Type} (a : Uid × α) (l : List (Uid × α)) (k : Uid)
    (h : ¬ a.1 = k) : lookupLast (a :: l) k = lookupLast l k := by
  unfold lookupLast
  rw [List.reverse_cons, List.find?_append]
  have h2 : (a.1 == k) = false := beq_eq_false_iff_ne.mpr h
  have h1 : List.find? (fun p => p.1 == k) [a] = none := by
    simp [List.find?, h2]
  rw [h1, Option.or_none]

theorem lookupLast_cons_self {α : Type} (a : Uid × α) (l : List (Uid × α))
    (h : a.1 ∉ l.map Prod.fst) : lookupLast (a :: l) a.1 = some a.2 := by
  unfold lookupLast
  rw [List.reverse_cons, List.find?_append]
  have h1 : List.find? (fun p => p.1 == a.1) l.reverse = none := by
    apply List.find?_eq_none.mpr
    intro p hp
    simp only [List.mem_reverse] at hp
    have hmem : p.1 ∈ l.map Prod.fst := List.mem_map_of_mem _ hp
    intro hc
    exact h (beq_iff_eq.mp hc ▸ hmem)
  rw [h1, Option.none_or]
  simp [List.find?]

theorem dedupKeysFirst_of_nodup (l : List Uid) (h : l.Nodup) : dedupKeysFirst l = l := by
  induction l with
  | nil => rfl
  | cons k ks ih =>
    unfold dedupKeysFirst
    rw [ih (List.Nodup.of_cons h)]
    have : ∀ a ∈ ks, (!(a == k)) = true := by
      intro a ha
      have : ¬ a = k := fun hc => (List.nodup_cons.mp h).1 (hc ▸ ha)
      simpa using this
    rw [List.filter_eq_self.mpr this]

theorem mapEntries_of_nodup {α : Type} :
    ∀ l : List (Uid × α), (l.map Prod.fst).Nodup → mapEntries l = l := by
  intro l
  induction l with
  | nil => intro _; rfl
  | cons a rest ih =>
    intro h
    rw [List.map_cons] at h
    have hmem : a.1 ∉ rest.map Prod.fst := (List.nodup_cons.mp h).1
    have hn : (rest.map Prod.fst).Nodup := (List.nodup_cons.mp h).2
    unfold mapEntries
    rw [List.map_cons, dedupKeysFirst_of_nodup _ h, List.filterMap_cons]
    rw [lookupLast_cons_self a rest hmem]
    have htail : (rest.map Prod.fst).filterMap
        (fun k => (lookupLast (a :: rest) k).map (fun v => (k, v)))
        = (rest.map Prod.fst).filterMap
          (fun k => (lookupLast rest k).map (fun v => (k, v))) := by
      apply List.filterMap_congr
      intro k hk
      have : ¬ a.1 = k := fun hc => hmem (hc ▸ hk)
      rw [lookupLast_cons_ne a rest k this]
    rw [htail]
    have := ih hn
    unfold mapEntries at this
    rw [dedupKeysFirst_of_nodup _ hn] at this
    rw [this]
    simp

/-! ## Additional find?/filter helpers -/

theorem find?_filter_not {α : Type} (l : List α) (p : α → Bool) :
    (l.filter (fun a => !(p a))).find? p = none := by
  apply List.find?_eq_none.mpr
  intro a ha
  have h := List.of_mem_filter ha
  simp only [Bool.not_eq_true'] at h
  simp [h]

/-! ## Shared concrete scenario for witnesses and counterexamples -/

namespace W

def P : Uid := Uid.wellFormed 5

def Q : Uid := Uid.wellFormed 11

def C : Uid := Uid.wellFormed 6

def E : Uid := Uid.wellFormed 7

def O : Uid := Uid.wellFormed 8

def I1 : Uid := Uid.wellFormed 9

def prodP : ProductRow := ⟨P, "Phone", "", 50, 5, "available"⟩

def prodQ : ProductRow := ⟨Q, "Cable", "", 10, 2, "available"⟩

def custC : CustomerRow := ⟨C, "Alice", "alice@shop", "555", "Main St"⟩

/-- Base state: one customer, two products, no orders; generator at 100. -/
def db0 : Db := ⟨[custC], [prodP, prodQ], [], [], 100, 3⟩

/-- State with one existing order `O` of 3 × product `P`. -/
def db1 : Db := ⟨[custC], [prodP, prodQ],
  [⟨O, C, "Alice", E, "Eve", 150, 1⟩], [⟨I1, O, P, "Phone", 3, 50⟩], 100, 3⟩

end W

/-! ## C1 -/

/-- The C1 failing input: one create request with two line items for the
same product `P` (stock 5), 3 units each. -/
def c1Order : NewOrder :=
  ⟨W.C, "Alice", W.E, "Eve",
    [⟨Uid.wellFormed 1, W.P, "Phone", 3, 50⟩, ⟨Uid.wellFormed 2, W.P, "Phone", 3, 50⟩], 300⟩

/-- C1: the claim "no product's stock value ever becomes negative … even
when a single create request contains two line items referencing the same
productId" fails on the code: with product `P` at stock 5, a create request
with two line items of 3 × `P` passes validation (each line is checked
against the same untouched stock of 5), succeeds, and leaves `P` at
stock −1. -/
theorem C1_duplicate_line_items_create_negative_stock :
    (∃ o, (createOrder noFaults c1Order W.db0).1 = .ok (some o)) ∧
    findProduct (createOrder noFaults c1Order W.db0).2 W.P
      = some ⟨W.P, "Phone", "", 50, -1, "available"⟩ := by
  constructor
  · exact ⟨_, rfl⟩
  · rfl

/-! ## C5 -/

/-- The validation loop of `createOrder`: if every referenced product
exists and some line item requests more than that product's current stock,
validation stops with `InsufficientStock` for the first such item, carrying
the item's product name, the available stock and the requested quantity. -/
theorem validateItems_error_of_violation (db : Db) :
    ∀ l : List OrderItem, (∀ i ∈ l, (findProduct db i.productId).isSome = true) →
    (∃ i ∈ l, ∃ p, findProduct db i.productId = some p ∧ p.stock < i.quantity) →
    ∃ i ∈ l, ∃ p, findProduct db i.productId = some p ∧ p.stock < i.quantity ∧
      validateItems db l
        = some (.insufficientStock i.productName (jsOrInt p.stock 0) i.quantity) := by
  intro l
  induction l with
  | nil => intro _ hviol; simp at hviol
  | cons a rest ih =>
    intro hex hviol
    obtain ⟨pa, hpa⟩ := Option.isSome_iff_exists.mp (hex a (List.mem_cons_self a rest))
    by_cases hlt : pa.stock < a.quantity
    · refine ⟨a, List.mem_cons_self a rest, pa, hpa, hlt, ?_⟩
      unfold validateItems
      rw [hpa]
      dsimp only
      rw [if_pos hlt]
    · have hviol' : ∃ i ∈ rest, ∃ p, findProduct db i.productId = some p ∧ p.stock < i.quantity := by
        obtain ⟨i, hi, p, hp, hlt'⟩ := hviol
        rcases List.mem_cons.mp hi with rfl | hi'
        · rw [hpa] at hp; cases hp; exact absurd hlt' hlt
        · exact ⟨i, hi', p, hp, hlt'⟩
      obtain ⟨i, hi, p, hp, hlt', hval⟩ :=
        ih (fun i hi => hex i (List.mem_cons_of_mem a hi)) hviol'
      refine ⟨i, List.mem_cons_of_mem a hi, p, hp, hlt', ?_⟩
      unfold validateItems
      rw [hpa]
      dsimp only
      rw [if_neg hlt, hval]

/-- C5: for every `createOrder` call whose referenced products all exist,
if some line item's requested quantity exceeds the product's current stock,
the call fails with the `InsufficientStock` error carrying the product
name, the available quantity and the requested quantity, and the state is
returned unchanged — no order header or item row is persisted (validation
of every line item's full quantity precedes every write). -/
theorem C5_insufficient_stock_blocks_create (F : Faults) (ord : NewOrder) (db : Db)
    (hex : ∀ i ∈ ord.items, (findProduct db i.productId).isSome = true)
    (hviol : ∃ i ∈ ord.items, ∃ p, findProduct db i.productId = some p ∧ p.stock < i.quantity) :
    ∃ i ∈ ord.items, ∃ p, findProduct db i.productId = some p ∧ p.stock < i.quantity ∧
      createOrder F ord db
        = (.error (.insufficientStock i.productName (jsOrInt p.stock 0) i.quantity), db) := by
  obtain ⟨i, hi, p, hp, hlt, hval⟩ := validateItems_error_of_violation db ord.items hex hviol
  refine ⟨i, hi, p, hp, hlt, ?_⟩
  unfold createOrder
  rw [hval]

/-- C5 witness: product `Q` has stock 2 and a single-line order requests
5 × `Q`; the theorem applies and `createOrder` fails with
`InsufficientStock ("Cable", 2, 5)` leaving the state untouched. -/
theorem C5_insufficient_stock_blocks_create_witness :
    ∃ i ∈ [(⟨W.I1, W.Q, "Cable", 5, 10⟩ : OrderItem)], ∃ p,
      findProduct W.db0 i.productId = some p ∧ p.stock < i.quantity ∧
      createOrder noFaults ⟨W.C, "Alice", W.E, "Eve", [⟨W.I1, W.Q, "Cable", 5, 10⟩], 50⟩ W.db0
        = (.error (.insufficientStock i.productName (jsOrInt p.stock 0) i.quantity), W.db0) :=
  C5_insufficient_stock_blocks_create noFaults
    ⟨W.C, "Alice", W.E, "Eve", [⟨W.I1, W.Q, "Cable", 5, 10⟩], 50⟩ W.db0
    (by decide)
    ⟨⟨W.I1, W.Q, "Cable", 5, 10⟩, by simp, W.prodQ, by decide, by decide⟩

/-! ## C6 -/

/-- C6 counterexample: a direct `createOrder` call with an empty item list
is *not* rejected before any write — the vacuous validation loop passes,
the header row is inserted, the items/stock block is skipped, and the call
returns a persisted order with zero items.  (Here: state `W.db0` with no
orders; afterwards the orders table holds one header and the order is
returned with `items = []`.) -/
theorem C6_counterexample_empty_create_persists_header :
    (∃ o, (createOrder noFaults ⟨W.C, "Alice", W.E, "Eve", [], 0⟩ W.db0).1
        = .ok (some o) ∧ o.items = []) ∧
    (createOrder noFaults ⟨W.C, "Alice", W.E, "Eve", [], 0⟩ W.db0).2.orders
      = [⟨Uid.wellFormed 100, W.C, "Alice", W.E, "Eve", 0, 3⟩] := by
  exact ⟨⟨_, rfl, rfl⟩, rfl⟩

/-- C6 (amended): the at-least-one-item rule is enforced by the form layer,
not by the service: `handleSubmit` (OrderNew) and `confirmUpdate`
(OrderEdit) reject an empty item list before any service call with the
state untouched, and removing the last remaining line item is rejected by
`confirmDelete` (OrderEdit) and `removeItem` (OrderNew), which leave the
form state unchanged.  (`createOrder` itself, by the counterexample,
persists a header with zero items when handed an empty list.) -/
theorem C6_empty_item_list_rejected_by_form_layer :
    (∀ F cs es cid eid db, ∃ msg,
      handleSubmit F cs es cid eid [] db = (.rejected msg, db)) ∧
    (∀ F cs es oid cid eid db, ∃ msg,
      confirmUpdate F cs es oid cid eid [] db = (.rejected msg, db)) ∧
    (∀ t (item : FormItem), confirmDelete (some t) [item] = [item]) ∧
    (∀ t (item : FormItem), removeItem t [item] = [item]) := by
  refine ⟨?_, ?_, ?_, ?_⟩
  · intro F cs es cid eid db
    cases cid with
    | none => exact ⟨_, rfl⟩
    | some c =>
      cases eid with
      | none => exact ⟨_, rfl⟩
      | some e => exact ⟨_, rfl⟩
  · intro F cs es oid cid eid db
    cases cid with
    | none => exact ⟨_, rfl⟩
    | some c =>
      cases eid with
      | none => exact ⟨_, rfl⟩
      | some e => exact ⟨_, rfl⟩
  · intro t item; rfl
  · intro t item; rfl

/-! ## C7 -/

/-- C7: if the order-items insert fails after the header row was inserted
during `createOrder` (items non-empty, validation passed, header write
succeeded), the compensating delete removes the header again: the call
returns `null`, no row with the new order id remains, and a subsequent
`fetchOrderById` of that id returns not-found. -/
theorem C7_compensating_delete_on_items_failure (F : Faults) (ord : NewOrder) (db : Db)
    (hh : F.headerWrite = false) (hi : F.itemsWrite = true)
    (hne : ord.items ≠ []) (hv : validateItems db ord.items = none) :
    (createOrder F ord db).1 = .ok none ∧
    (createOrder F ord db).2.orders.find?
      (fun r => r.id == Uid.wellFormed db.gen) = none ∧
    (fetchOrderById (Uid.wellFormed db.gen) (createOrder F ord db).2).1 = none := by
  have hisEmpty : ord.items.isEmpty = false := by
    cases h : ord.items with
    | nil => exact absurd h hne
    | cons a l => rfl
  have hrun : createOrder F ord db
      = (.ok none, deleteOrderHeader (Uid.wellFormed db.gen)
          (buildItemRows (Uid.wellFormed db.gen) ord.items
            { (ensureUUID ord.employeeId (ensureUUID ord.customerId (uuidv4 db).2).2).2 with
              orders := (ensureUUID ord.employeeId (ensureUUID ord.customerId (uuidv4 db).2).2).2.orders
                ++ [⟨Uid.wellFormed db.gen,
                      (ensureUUID ord.customerId (uuidv4 db).2).1, ord.customerName,
                      (ensureUUID ord.employeeId (ensureUUID ord.customerId (uuidv4 db).2).2).1,
                      ord.employeeName, jsOrRat ord.total 0,
                      (ensureUUID ord.employeeId (ensureUUID ord.customerId (uuidv4 db).2).2).2.time⟩] }).2) := by
    unfold createOrder
    rw [hv]
    dsimp only
    rw [hh, hisEmpty, hi]
    rfl
  have hfindnone : (createOrder F ord db).2.orders.find?
      (fun r => r.id == Uid.wellFormed db.gen) = none := by
    rw [hrun]
    exact find?_filter_not _ _
  refine ⟨by rw [hrun], hfindnone, ?_⟩
  unfold fetchOrderById
  rw [ensureUUID_valid (Uid.wellFormed db.gen) _ rfl]
  dsimp only
  rw [hfindnone]

/-- C7 witness: the duplicate-items order of C1 (any order with items would
do) against `W.db0`, with the oracle failing the items insert: the header
(id 100 = the generator value) is gone afterwards and the re-read returns
not-found. -/
theorem C7_compensating_delete_on_items_failure_witness :
    (createOrder ⟨false, false, true, none⟩ c1Order W.db0).1 = .ok none ∧
    (createOrder ⟨false, false, true, none⟩ c1Order W.db0).2.orders.find?
      (fun r => r.id == Uid.wellFormed W.db0.gen) = none ∧
    (fetchOrderById (Uid.wellFormed W.db0.gen)
      (createOrder ⟨false, false, true, none⟩ c1Order W.db0).2).1 = none :=
  C7_compensating_delete_on_items_failure ⟨false, false, true, none⟩ c1Order W.db0
    rfl rfl (by decide) (by decide)

/-! ## C9 -/

/-- Reading items does not change the state when every stored `product_id`
is in valid UUID format (`ensureUUID` then never draws a fresh id). -/
theorem readItems_pure (l : List ItemRow) (h : ∀ r ∈ l, isValidUUID r.productId = true) :
    ∀ db, (readItems l db).2 = db := by
  induction l with
  | nil => intro db; rfl
  | cons r rs ih =>
    intro db
    unfold readItems
    dsimp only
    rw [ensureUUID_valid _ _ (h r (List.mem_cons_self r rs))]
    exact ih (fun x hx => h x (List.mem_cons_of_mem r hx)) db

/-- Assembling an order from a row does not change the state when the
row's ids and its items' product ids are all valid UUIDs. -/
theorem readOrderRow_pure (row : OrderRow) (db : Db)
    (hid : isValidUUID row.id = true) (hc : isValidUUID row.customerId = true)
    (he : isValidUUID row.employeeId = true)
    (hitems : ∀ r ∈ db.orderItems, isValidUUID r.productId = true) :
    (readOrderRow row db).2 = db := by
  unfold readOrderRow
  dsimp only
  rw [ensureUUID_valid _ _ hid, ensureUUID_valid _ _ hc, ensureUUID_valid _ _ he]
  exact readItems_pure _ (fun r hr => hitems r (List.mem_of_mem_filter hr)) db

/-- C9: over a well-formed store (stored order rows reference customers and
employees by valid UUIDs, stored items reference products by valid UUIDs)
and for a valid order id, `fetchOrderById` leaves the state unchanged, so
two consecutive calls with no intervening writes return identical results
— the same header fields and the same item list. -/
theorem C9_fetchOrderById_idempotent (id : Uid) (db : Db)
    (hid : isValidUUID id = true)
    (horders : ∀ row ∈ db.orders,
      isValidUUID row.customerId = true ∧ isValidUUID row.employeeId = true)
    (hitems : ∀ r ∈ db.orderItems, isValidUUID r.productId = true) :
    (fetchOrderById id db).2 = db ∧
    (fetchOrderById id (fetchOrderById id db).2).1 = (fetchOrderById id db).1 := by
  have hpure : (fetchOrderById id db).2 = db := by
    unfold fetchOrderById
    dsimp only
    rw [ensureUUID_valid _ _ hid]
    cases hfind : db.orders.find? (fun r => r.id == id) with
    | none => rfl
    | some row =>
      have hp := List.find?_some (p := fun r => r.id == id) (a := row) hfind
      have hrowid : row.id = id := beq_iff_eq.mp hp
      have hrowmem : row ∈ db.orders := List.mem_of_find?_eq_some hfind
      exact readOrderRow_pure row db (hrowid ▸ hid) (horders row hrowmem).1
        (horders row hrowmem).2 hitems
  exact ⟨hpure, by rw [hpure]⟩

/-- C9 witness: the one-order state `W.db1` (all stored ids valid); reading
order `W.O` twice changes nothing and returns the same result. -/
theorem C9_fetchOrderById_idempotent_witness :
    (fetchOrderById W.O W.db1).2 = W.db1 ∧
    (fetchOrderById W.O (fetchOrderById W.O W.db1).2).1 = (fetchOrderById W.O W.db1).1 :=
  C9_fetchOrderById_idempotent W.O W.db1 rfl (by decide) (by decide)

/-! ## C10 -/

theorem wf_ne_of_ne (a b : Nat) (h : a ≠ b) : Uid.wellFormed a ≠ Uid.wellFormed b :=
  fun hc => h (Uid.wellFormed.inj hc)

/-- The shared base state has a fresh generator: its counter (100) is above
every stored id. -/
theorem db0_genFresh : GenFresh W.db0 := by
  intro n hn
  have h100 : 100 ≤ n := hn
  refine ⟨?_, ?_, ?_, ?_⟩
  · intro r hr
    have hv : r = W.custC := by simpa [W.db0] using hr
    subst hv
    exact wf_ne_of_ne 6 n (by omega)
  · intro r hr
    have hv : r = W.prodP ∨ r = W.prodQ := by simpa [W.db0] using hr
    rcases hv with rfl | rfl
    · exact wf_ne_of_ne 5 n (by omega)
    · exact wf_ne_of_ne 11 n (by omega)
  · intro r hr
    simp [W.db0] at hr
  · intro r hr
    simp [W.db0] at hr

/-- The all-`none` patches used in witnesses. -/
def emptyOrderPatch : OrderPatch := ⟨none, none, none, none, none, none⟩

def emptyCustomerPatch : CustomerPatch := ⟨none, none, none, none⟩

def emptyProductPatch : ProductPatch := ⟨none, none, none, none, none⟩

/-- C10: over a generator-fresh store, an id that is not in valid UUID
format is not rejected with a validation error by the by-id operations:
`ensureUUID` silently replaces it with a freshly generated UUID (and two
successive calls substitute different ids), after which `fetchOrderById`
returns not-found, `updateOrder` returns `null` (original order not
found), `deleteOrder` "succeeds" deleting nothing, and `updateCustomer` /
`updateProduct` return `null` — each operation proceeds against an id
matching no existing row. -/
theorem C10_malformed_id_silently_substituted (m : Nat) (db : Db) (patch : OrderPatch)
    (cpatch : CustomerPatch) (ppatch : ProductPatch) (hfresh : GenFresh db) :
    isValidUUID (Uid.malformed m) = false ∧
    ensureUUID (Uid.malformed m) db = (Uid.wellFormed db.gen, { db with gen := db.gen + 1 }) ∧
    (ensureUUID (Uid.malformed m) (ensureUUID (Uid.malformed m) db).2).1
      ≠ (ensureUUID (Uid.malformed m) db).1 ∧
    (fetchOrderById (Uid.malformed m) db).1 = none ∧
    (updateOrder noFaults (Uid.malformed m) patch db).1 = .ok none ∧
    deleteOrder noFaults (Uid.malformed m) db = (true, { db with gen := db.gen + 1 }) ∧
    (updateCustomer (Uid.malformed m) cpatch db).1 = none ∧
    (updateProduct (Uid.malformed m) ppatch db).1 = none := by
  have hbad : isValidUUID (Uid.malformed m) = false := rfl
  have hgen := hfresh db.gen (Nat.le_refl db.gen)
  have hfindO : db.orders.find? (fun r => r.id == Uid.wellFormed db.gen) = none :=
    find?_eq_none_of_forall_ne _ _ _ hgen.2.2.1
  have hfindC : db.customers.find? (fun r => r.id == Uid.wellFormed db.gen) = none :=
    find?_eq_none_of_forall_ne _ _ _ hgen.1
  have hfindP : db.products.find? (fun r => r.id == Uid.wellFormed db.gen) = none :=
    find?_eq_none_of_forall_ne _ _ _ hgen.2.1
  refine ⟨hbad, ensureUUID_invalid _ _ hbad, ?_, ?_, ?_, ?_, ?_, ?_⟩
  · rw [ensureUUID_invalid _ _ hbad]
    dsimp only
    rw [ensureUUID_invalid _ _ hbad]
    dsimp only
    exact wf_ne_of_ne _ _ (by omega)
  · unfold fetchOrderById
    dsimp only
    rw [ensureUUID_invalid _ _ hbad]
    dsimp only
    rw [hfindO]
  · unfold updateOrder
    dsimp only
    rw [ensureUUID_invalid _ _ hbad]
    dsimp only
    rw [hfindO]
  · have hoi : db.orderItems.filter (fun r => !(r.orderId == Uid.wellFormed db.gen))
        = db.orderItems := filter_ne_of_forall_ne _ _ _ hgen.2.2.2
    have hor : db.orders.filter (fun r => !(r.id == Uid.wellFormed db.gen))
        = db.orders := filter_ne_of_forall_ne _ _ _ hgen.2.2.1
    unfold deleteOrder
    dsimp only
    rw [ensureUUID_invalid _ _ hbad]
    dsimp only
    rw [if_neg (by simp [noFaults]), if_neg (by simp [noFaults])]
    rw [hoi, hor]
  · unfold updateCustomer
    dsimp only
    rw [ensureUUID_invalid _ _ hbad]
    dsimp only
    rw [hfindC]
  · unfold updateProduct
    dsimp only
    rw [ensureUUID_invalid _ _ hbad]
    dsimp only
    rw [hfindP]

/-- C10 witness: the fresh base state `W.db0` with the malformed id
`Uid.malformed 0` and empty patches. -/
theorem C10_malformed_id_silently_substituted_witness :
    isValidUUID (Uid.malformed 0) = false ∧
    ensureUUID (Uid.malformed 0) W.db0
      = (Uid.wellFormed W.db0.gen, { W.db0 with gen := W.db0.gen + 1 }) ∧
    (ensureUUID (Uid.malformed 0) (ensureUUID (Uid.malformed 0) W.db0).2).1
      ≠ (ensureUUID (Uid.malformed 0) W.db0).1 ∧
    (fetchOrderById (Uid.malformed 0) W.db0).1 = none ∧
    (updateOrder noFaults (Uid.malformed 0) emptyOrderPatch W.db0).1 = .ok none ∧
    deleteOrder noFaults (Uid.malformed 0) W.db0
      = (true, { W.db0 with gen := W.db0.gen + 1 }) ∧
    (updateCustomer (Uid.malformed 0) emptyCustomerPatch W.db0).1 = none ∧
    (updateProduct (Uid.malformed 0) emptyProductPatch W.db0).1 = none :=
  C10_malformed_id_silently_substituted 0 W.db0 emptyOrderPatch emptyCustomerPatch
    emptyProductPatch db0_genFresh

/-! ## C2 -/

/-- C2 counterexample: with order `W.O` (3 × `P`, total 150) and product
`P` at stock 5, an update to 9 × `P` with total 999 fails the delta stock
check (needs 6 more, only 5 available) — but the order's header row has
already been updated (`total` is 999 after the failed call, 150 before),
refuting "the order's header row … unchanged from their pre-call values". -/
theorem C2_counterexample_header_updated_before_stock_check :
    (updateOrder noFaults W.O
      ⟨none, none, none, none, some 999, some [⟨W.I1, W.P, "Phone", 9, 50⟩]⟩ W.db1).1
      = .error (.insufficientStockAdd "Phone" 5 6) ∧
    ((updateOrder noFaults W.O
      ⟨none, none, none, none, some 999, some [⟨W.I1, W.P, "Phone", 9, 50⟩]⟩ W.db1).2.orders.map
        (fun r => r.total)) = [999] ∧
    W.db1.orders.map (fun r => r.total) = [150] :=
  ⟨rfl, rfl, rfl⟩

theorem ensureOptUUID_valid (i : Option Uid) (db : Db) (h : ∀ c ∈ i, isValidUUID c = true) :
    ensureOptUUID i db = (i, db) := by
  cases i with
  | none => rfl
  | some c =>
    unfold ensureOptUUID
    dsimp only
    rw [ensureUUID_valid c db (h c rfl)]

theorem nonProducts_orders {a b : Db} (h : a.nonProducts = b.nonProducts) :
    a.orders = b.orders := by
  simp only [Db.nonProducts, Prod.mk.injEq] at h
  exact h.2.1

theorem nonProducts_orderItems {a b : Db} (h : a.nonProducts = b.nonProducts) :
    a.orderItems = b.orderItems := by
  simp only [Db.nonProducts, Prod.mk.injEq] at h
  exact h.2.2.1

theorem removedLoop_orders (F : Faults) (nk : List Uid) (entries : List (Uid × Int × Uid))
    (k : Nat) (db : Db) : ((removedLoop F nk entries k db).2.1).orders = db.orders :=
  nonProducts_orders (removedLoop_nonProducts F nk entries k db)

theorem removedLoop_orderItems (F : Faults) (nk : List Uid) (entries : List (Uid × Int × Uid))
    (k : Nat) (db : Db) : ((removedLoop F nk entries k db).2.1).orderItems = db.orderItems :=
  nonProducts_orderItems (removedLoop_nonProducts F nk entries k db)

theorem itemLoop_orders (F : Faults) (m : List (Uid × Int × Uid)) (l : List OrderItem)
    (k : Nat) (db : Db) : ((itemLoop F m l k db).2.1).orders = db.orders :=
  nonProducts_orders (itemLoop_nonProducts F m l k db)

theorem itemLoop_orderItems (F : Faults) (m : List (Uid × Int × Uid)) (l : List OrderItem)
    (k : Nat) (db : Db) : ((itemLoop F m l k db).2.1).orderItems = db.orderItems :=
  nonProducts_orderItems (itemLoop_nonProducts F m l k db)

/-- C2 (amended): when `updateOrder` fails at a stock check or a stock
write (any error other than the order-items insert failure), the order's
item rows are unchanged from their pre-call values, but the header row has
*already* been updated with the provided scalar fields — the source writes
the header before any stock handling.  (Stock writes applied before the
failing one are likewise not rolled back, per the documented gap.) -/
theorem C2_stock_failure_items_unchanged_header_already_patched
    (F : Faults) (id : Uid) (patch : OrderPatch) (db : Db) (e : OrderErr) (db' : Db)
    (hid : isValidUUID id = true)
    (hcid : ∀ c ∈ patch.customerId, isValidUUID c = true)
    (heid : ∀ c ∈ patch.employeeId, isValidUUID c = true)
    (hrun : updateOrder F id patch db = (.error e, db'))
    (hne : e ≠ .itemsWriteFailed) :
    db'.orderItems = db.orderItems ∧
    db'.orders = db.orders.map (fun r =>
      if r.id = id then
        applyHeaderPatch patch.customerId
          (patch.customerName.bind (fun s => if s = "" then none else some s))
          patch.employeeId
          (patch.employeeName.bind (fun s => if s = "" then none else some s))
          patch.total r
      else r) := by
  unfold updateOrder at hrun
  rw [ensureUUID_valid _ _ hid] at hrun
  dsimp only at hrun
  split at hrun
  · simp at hrun
  · rw [ensureOptUUID_valid _ _ hcid] at hrun
    dsimp only at hrun
    rw [ensureOptUUID_valid _ _ heid] at hrun
    dsimp only at hrun
    split at hrun
    · simp at hrun
    · split at hrun
      · simp at hrun
      · split at hrun
        · simp at hrun
        · split at hrun
          · -- removedLoop failed
            simp only [Prod.mk.injEq, Except.error.injEq] at hrun
            obtain ⟨he, hdb⟩ := hrun
            subst hdb
            exact ⟨removedLoop_orderItems F _ _ 0 _, removedLoop_orders F _ _ 0 _⟩
          · split at hrun
            · -- itemLoop failed
              simp only [Prod.mk.injEq, Except.error.injEq] at hrun
              obtain ⟨he, hdb⟩ := hrun
              subst hdb
              refine ⟨?_, ?_⟩
              · rw [itemLoop_orderItems, removedLoop_orderItems]
              · rw [itemLoop_orders, removedLoop_orders]
            · split at hrun
              · -- items insert failed: excluded by hypothesis
                simp only [Prod.mk.injEq, Except.error.injEq] at hrun
                exact absurd hrun.1.symm hne
              · simp at hrun

/-- The C2 scenario patch: new total 999 and a replacement item list
raising 3 × `P` to 9 × `P`. -/
def c2Patch : OrderPatch := ⟨none, none, none, none, some 999, some [⟨W.I1, W.P, "Phone", 9, 50⟩]⟩

/-- C2 witness: the counterexample scenario run through the amended
theorem — the failed update left the item rows intact and the header
patched with the new total. -/
theorem C2_stock_failure_items_unchanged_header_already_patched_witness :
    (updateOrder noFaults W.O c2Patch W.db1).2.orderItems = W.db1.orderItems ∧
    (updateOrder noFaults W.O c2Patch W.db1).2.orders = W.db1.orders.map (fun r =>
      if r.id = W.O then
        applyHeaderPatch c2Patch.customerId
          (c2Patch.customerName.bind (fun s => if s = "" then none else some s))
          c2Patch.employeeId
          (c2Patch.employeeName.bind (fun s => if s = "" then none else some s))
          c2Patch.total r
      else r) :=
  C2_stock_failure_items_unchanged_header_already_patched noFaults W.O c2Patch W.db1
    (.insufficientStockAdd "Phone" 5 6) (updateOrder noFaults W.O c2Patch W.db1).2
    rfl (by simp [c2Patch]) (by simp [c2Patch]) rfl (by decide)

/-! ## C8 -/

/-- The original-quantity lookup `updateOrder` performs: the last-set
quantity for the product in the original items map (0 when absent). -/
def origQtyOf (db : Db) (oid : Uid) (p : Uid) : Int :=
  ((lookupLast ((db.orderItems.filter (fun r => r.orderId == oid)).map
    (fun r => (r.productId, (jsOrInt r.quantity 0, r.id)))) p).map Prod.fst).getD 0

/-- The removed-items loop never produces an `InsufficientStock` error: it
only returns stock, it never checks it. -/
theorem removedLoop_no_insufficient (F : Faults) (nk : List Uid) :
    ∀ (entries : List (Uid × Int × Uid)) (k : Nat) (db : Db) (n : String) (a d : Int),
    (removedLoop F nk entries k db).1 ≠ some (.insufficientStockAdd n a d) := by
  intro entries
  induction entries with
  | nil => intro k db n a d h; simp [removedLoop] at h
  | cons e rest ih =>
    intro k db n a d h
    obtain ⟨pid, qty, iid⟩ := e
    unfold removedLoop at h
    try dsimp only at h
    split at h
    · exact ih _ _ _ _ _ h
    · split at h
      · simp at h
      · split at h
        · simp at h
        · exact ih _ _ _ _ _ h

/-- Every `InsufficientStock` error of the new/modified-items loop comes
from an item whose quantity delta against the original map is strictly
positive, and the amount checked (and reported) is exactly that delta —
never the full quantity. -/
theorem itemLoop_insufficient_source (F : Faults) (m : List (Uid × Int × Uid)) :
    ∀ (l : List OrderItem) (k : Nat) (db : Db) (n : String) (a d : Int),
    (itemLoop F m l k db).1 = some (.insufficientStockAdd n a d) →
    ∃ i ∈ l, n = i.productName ∧
      d = jsOrInt i.quantity 0 - ((lookupLast m i.productId).map Prod.fst).getD 0 ∧
      0 < d := by
  intro l
  induction l with
  | nil => intro k db n a d h; simp [itemLoop] at h
  | cons i rest ih =>
    intro k db n a d h
    unfold itemLoop at h
    dsimp only at h
    split at h
    · -- 0 < diff
      rename_i hdiff
      split at h
      · simp at h
      · split at h
        · -- the stock check fired
          simp only [Option.some.injEq, OrderErr.insufficientStockAdd.injEq] at h
          exact ⟨i, List.mem_cons_self i rest, h.1.symm, h.2.2.symm, h.2.2 ▸ hdiff⟩
        · split at h
          · simp at h
          · split at h
            · simp at h
            · obtain ⟨j, hj, hrest⟩ := ih _ _ _ _ _ h
              exact ⟨j, List.mem_cons_of_mem i hj, hrest⟩
    · split at h
      · -- diff = 0: skip
        obtain ⟨j, hj, hrest⟩ := ih _ _ _ _ _ h
        exact ⟨j, List.mem_cons_of_mem i hj, hrest⟩
      · -- diff < 0: only return stock
        split at h
        · simp at h
        · split at h
          · simp at h
          · obtain ⟨j, hj, hrest⟩ := ih _ _ _ _ _ h
            exact ⟨j, List.mem_cons_of_mem i hj, hrest⟩

/-- C8: stock validation in `updateOrder` applies only to per-product
deltas greater than zero.  (a) Every `InsufficientStock` failure of an
update names an item of the replacement list whose delta
`newQuantity − originalQuantity` is strictly positive, and the rejected
amount is exactly that delta.  (b) If every item of the replacement list
has `newQuantity ≤ originalQuantity` (items removed entirely are never
checked at all), the call can never fail with `InsufficientStock`,
regardless of current stock levels. -/
theorem C8_stock_validation_only_on_positive_deltas
    (F : Faults) (id : Uid) (patch : OrderPatch) (db : Db) (newList : List OrderItem)
    (hid : isValidUUID id = true)
    (hitems : patch.items = some newList) :
    (∀ n a d db', updateOrder F id patch db = (.error (.insufficientStockAdd n a d), db') →
      ∃ i ∈ newList, n = i.productName ∧
        d = jsOrInt i.quantity 0 - origQtyOf db id i.productId ∧ 0 < d) ∧
    ((∀ i ∈ newList, jsOrInt i.quantity 0 ≤ origQtyOf db id i.productId) →
      ∀ n a d db', updateOrder F id patch db ≠ (.error (.insufficientStockAdd n a d), db')) := by
  have hpart1 : ∀ n a d db',
      updateOrder F id patch db = (.error (.insufficientStockAdd n a d), db') →
      ∃ i ∈ newList, n = i.productName ∧
        d = jsOrInt i.quantity 0 - origQtyOf db id i.productId ∧ 0 < d := by
    intro n a d db' hrun
    unfold updateOrder at hrun
    rw [ensureUUID_valid _ _ hid] at hrun
    dsimp only at hrun
    split at hrun
    · simp at hrun
    · split at hrun
      · simp at hrun
      · split at hrun
        · simp at hrun
        · rw [hitems] at hrun
          dsimp only at hrun
          split at hrun
          · -- removedLoop error
            simp only [Prod.mk.injEq, Except.error.injEq] at hrun
            rename_i heq
            rw [hrun.1] at heq
            exact absurd heq (removedLoop_no_insufficient F _ _ _ _ _ _ _)
          · split at hrun
            · -- itemLoop error
              simp only [Prod.mk.injEq, Except.error.injEq] at hrun
              rename_i heq
              rw [hrun.1] at heq
              exact itemLoop_insufficient_source F _ _ _ _ _ _ _ heq
            · split at hrun
              · simp only [Prod.mk.injEq, Except.error.injEq] at hrun
                exact absurd hrun.1.symm (by simp)
              · simp at hrun
  refine ⟨hpart1, ?_⟩
  intro hdec n a d db' hrun
  obtain ⟨i, hi, _, hd, hpos⟩ := hpart1 n a d db' hrun
  have := hdec i hi
  omega

/-- C8 witness: the C2 scenario (order of 3 × `P`, update to 9 × `P`):
every `InsufficientStock` failure of that call names the 9 × `P` item with
delta 9 − 3 = 6 > 0. -/
theorem C8_stock_validation_only_on_positive_deltas_witness :
    (∀ n a d db', updateOrder noFaults W.O c2Patch W.db1
        = (.error (.insufficientStockAdd n a d), db') →
      ∃ i ∈ [(⟨W.I1, W.P, "Phone", 9, 50⟩ : OrderItem)], n = i.productName ∧
        d = jsOrInt i.quantity 0 - origQtyOf W.db1 W.O i.productId ∧ 0 < d) ∧
    ((∀ i ∈ [(⟨W.I1, W.P, "Phone", 9, 50⟩ : OrderItem)],
        jsOrInt i.quantity 0 ≤ origQtyOf W.db1 W.O i.productId) →
      ∀ n a d db', updateOrder noFaults W.O c2Patch W.db1
        ≠ (.error (.insufficientStockAdd n a d), db')) :=
  C8_stock_validation_only_on_positive_deltas noFaults W.O c2Patch W.db1
    [⟨W.I1, W.P, "Phone", 9, 50⟩] rfl rfl

/-! ## C4 -/

theorem stockFailsAt_noFaults (k : Nat) : stockFailsAt noFaults k = false := rfl

theorem tables_products {a b : Db} (h : a.tables = b.tables) : a.products = b.products := by
  simp only [Db.tables, Prod.mk.injEq] at h
  exact h.2.1

theorem findProduct_eq_of_products {a b : Db} (h : a.products = b.products) (q : Uid) :
    findProduct a q = findProduct b q := by
  unfold findProduct
  rw [h]

/-- First-match quantity of an entry list (what the removed-items loop adds
back per product; for duplicate-free lists this is *the* quantity). -/
def entryQty (entries : List (Uid × Int × Uid)) (q : Uid) : Int :=
  ((entries.find? (fun e => e.1 == q)).map (fun e => e.2.1)).getD 0

theorem option_map_congr {α β : Type} {o : Option α} {f g : α → β}
    (h : ∀ a, o = some a → f a = g a) : o.map f = o.map g := by
  cases o with
  | none => rfl
  | some a => simp [h a rfl]

theorem any_eq_false_of_not_mem_keys {β : Type} (rest : List (Uid × β)) (q : Uid)
    (h : q ∉ rest.map Prod.fst) : rest.any (fun e => e.1 == q) = false := by
  apply List.any_eq_false.mpr
  intro e he
  have : e.1 ∈ rest.map Prod.fst := List.mem_map_of_mem _ he
  intro hc
  exact h (beq_iff_eq.mp hc ▸ this)

/-- Pointwise effect of the removed-items loop (duplicate-free entries, no
faults): products absent from the new map and present in the entries get
their quantity added back to their stock; every other product row is
untouched. -/
theorem removedLoop_stock_spec (nk : List Uid) :
    ∀ entries : List (Uid × Int × Uid), (entries.map Prod.fst).Nodup →
    ∀ k db db' k', removedLoop noFaults nk entries k db = (none, db', k') →
    ∀ q, findProduct db' q = (findProduct db q).map (fun r =>
      if entries.any (fun e => e.1 == q) && !(nk.contains q) then
        { r with stock := r.stock + entryQty entries q } else r) := by
  intro entries
  induction entries with
  | nil =>
    intro _ k db db' k' hrun q
    simp only [removedLoop, Prod.mk.injEq] at hrun
    obtain ⟨-, hdb, -⟩ := hrun
    subst hdb
    cases findProduct db q <;> simp
  | cons e rest ih =>
    intro hnd k db db' k' hrun q
    obtain ⟨p₀, q₀, i₀⟩ := e
    rw [List.map_cons] at hnd
    have hmem : p₀ ∉ rest.map Prod.fst := (List.nodup_cons.mp hnd).1
    have hnd' : (rest.map Prod.fst).Nodup := (List.nodup_cons.mp hnd).2
    unfold removedLoop at hrun
    try dsimp only at hrun
    split at hrun
    · -- product also present in the new list: skipped here
      rename_i hcont
      rw [ih hnd' _ _ _ _ hrun q]
      apply option_map_congr
      intro r _
      by_cases hq : q = p₀
      · subst hq
        have hq1 : ((rest.any fun e => e.1 == q) && !nk.contains q) = false := by
          rw [hcont]; simp
        have hq2 : ((((q, q₀, i₀) :: rest).any fun e => e.1 == q) && !nk.contains q) = false := by
          rw [hcont]; simp
        simp only [hq1, hq2, Bool.false_eq_true, if_false]
      · have hpred : (p₀ == q) = false := beq_eq_false_iff_ne.mpr (fun hc => hq hc.symm)
        have hfind : (((p₀, q₀, i₀) :: rest).find? (fun e => e.1 == q))
            = rest.find? (fun e => e.1 == q) :=
          List.find?_cons_of_neg _ (by simp [hpred])
        simp only [List.any_cons, hpred, Bool.false_or, entryQty, hfind]
    · -- product removed: stock returned
      rename_i hcont
      split at hrun
      · simp at hrun
      · rename_i p heqp
        simp only [stockFailsAt_noFaults, Bool.false_eq_true, if_false] at hrun
        have hstep := ih hnd' _ _ _ _ hrun q
        by_cases hq : q = p₀
        · subst hq
          rw [hstep, findProduct_setStock_self, heqp]
          have hnorest : rest.any (fun e => e.1 == q) = false :=
            any_eq_false_of_not_mem_keys rest q hmem
          have hcont' : (nk.contains q) = false := by
            cases hc : nk.contains q with
            | false => rfl
            | true => exact absurd hc hcont
          have hfindc : (((q, q₀, i₀) :: rest).find? (fun e => e.1 == q)) = some (q, q₀, i₀) :=
            List.find?_cons_of_pos _ (beq_self_eq_true q)
          simp [hnorest, hcont', entryQty, hfindc, jsOrInt_zero]
          have hnmem : q ∉ nk := by simpa using hcont'
          rw [if_neg hnmem]
        · rw [hstep, findProduct_setStock_ne _ _ _ _ hq]
          apply option_map_congr
          intro r _
          have hpred : (p₀ == q) = false := beq_eq_false_iff_ne.mpr (fun hc => hq hc.symm)
          have hfind : (((p₀, q₀, i₀) :: rest).find? (fun e => e.1 == q))
              = rest.find? (fun e => e.1 == q) :=
            List.find?_cons_of_neg _ (by simp [hpred])
          simp only [List.any_cons, hpred, Bool.false_or, entryQty, hfind]

/-- The original-quantity lookup of the item loop (`originalItem ?
originalItem.quantity : 0` over the JS map). -/
def lookQty (m : List (Uid × Int × Uid)) (q : Uid) : Int :=
  ((lookupLast m q).map Prod.fst).getD 0

/-- First-match `newQuantity` of a replacement item list (for
duplicate-free lists this is *the* quantity of the product's line). -/
def newQtyOf (l : List OrderItem) (q : Uid) : Int :=
  ((l.find? (fun i => i.productId == q)).map (fun i => jsOrInt i.quantity 0)).getD 0

theorem prodRow_eq_of_stock {r : ProductRow} {v : Int} (h : v = r.stock) :
    ({ r with stock := v } : ProductRow) = r := by
  cases r
  simp_all

theorem prodRow_stock_congr {r : ProductRow} {v w : Int} (h : v = w) :
    ({ r with stock := v } : ProductRow) = { r with stock := w } := by
  rw [h]

/-- Pointwise effect of the new/modified-items loop (duplicate-free new
list, no faults): every product of the new list has its stock changed by
`-(newQuantity − originalQuantity)`; every other product row is
untouched. -/
theorem itemLoop_stock_spec (m : List (Uid × Int × Uid)) :
    ∀ l : List OrderItem, (l.map (fun i => i.productId)).Nodup →
    ∀ k db db' k', itemLoop noFaults m l k db = (none, db', k') →
    ∀ q, findProduct db' q = (findProduct db q).map (fun r =>
      if l.any (fun i => i.productId == q) then
        { r with stock := r.stock - (newQtyOf l q - lookQty m q) } else r) := by
  intro l
  induction l with
  | nil =>
    intro _ k db db' k' hrun q
    simp only [itemLoop, Prod.mk.injEq] at hrun
    obtain ⟨-, hdb, -⟩ := hrun
    subst hdb
    cases findProduct db q <;> simp
  | cons i rest ih =>
    intro hnd k db db' k' hrun q
    rw [List.map_cons] at hnd
    have hmem : i.productId ∉ rest.map (fun j => j.productId) := (List.nodup_cons.mp hnd).1
    have hnd' : (rest.map (fun j => j.productId)).Nodup := (List.nodup_cons.mp hnd).2
    have hnorest : ∀ r : ProductRow, rest.any (fun j => j.productId == i.productId) = false := by
      intro _
      apply List.any_eq_false.mpr
      intro j hj
      intro hc
      exact hmem (beq_iff_eq.mp hc ▸ List.mem_map_of_mem _ hj)
    unfold itemLoop at hrun
    dsimp only at hrun
    simp only [stockFailsAt_noFaults, Bool.false_eq_true, if_false] at hrun
    split at hrun
    · -- 0 < diff : check then decrement by the delta
      rename_i hdiff
      split at hrun
      · simp at hrun
      · rename_i p heqp
        split at hrun
        · simp at hrun
        · rename_i hstock
          split at hrun
          · rename_i heq2
            simp at heq2
          · rename_i p2 heq2
            have hp2 : p2 = p := by
              simp only [Option.some.injEq] at heq2
              exact heq2.symm
            subst hp2
            have hstep := ih hnd' _ _ _ _ hrun q
            by_cases hq : q = i.productId
            · subst hq
              rw [hstep, findProduct_setStock_self, heqp]
              have hfindc : ((i :: rest).find? (fun j => j.productId == i.productId))
                  = some i := List.find?_cons_of_pos _ (beq_self_eq_true i.productId)
              simp only [jsOrInt_zero] at hdiff hstock ⊢
              simp [hnorest p2, hfindc, newQtyOf, lookQty, jsOrInt_zero,
                ProductRow.mk.injEq] <;> omega
            · rw [hstep, findProduct_setStock_ne _ _ _ _ hq]
              apply option_map_congr
              intro r _
              have hpred : (i.productId == q) = false :=
                beq_eq_false_iff_ne.mpr (fun hc => hq hc.symm)
              have hfind : ((i :: rest).find? (fun j => j.productId == q))
                  = rest.find? (fun j => j.productId == q) :=
                List.find?_cons_of_neg _ (by simp [hpred])
              simp only [List.any_cons, hpred, Bool.false_or, newQtyOf, hfind]
    · split at hrun
      · -- diff = 0 : untouched
        rename_i hne hzero
        have hstep := ih hnd' _ _ _ _ hrun q
        by_cases hq : q = i.productId
        · subst hq
          rw [hstep]
          apply option_map_congr
          intro r _
          have hfindc : ((i :: rest).find? (fun j => j.productId == i.productId))
              = some i := List.find?_cons_of_pos _ (beq_self_eq_true i.productId)
          simp only [jsOrInt_zero] at hzero
          simp [hnorest r, hfindc, newQtyOf, lookQty, jsOrInt_zero]
          symm
          apply prodRow_eq_of_stock
          omega
        · rw [hstep]
          apply option_map_congr
          intro r _
          have hpred : (i.productId == q) = false :=
            beq_eq_false_iff_ne.mpr (fun hc => hq hc.symm)
          have hfind : ((i :: rest).find? (fun j => j.productId == q))
              = rest.find? (fun j => j.productId == q) :=
            List.find?_cons_of_neg _ (by simp [hpred])
          simp only [List.any_cons, hpred, Bool.false_or, newQtyOf, hfind]
      · -- diff < 0 : stock returned
        rename_i hne hnz
        split at hrun
        · simp at hrun
        · rename_i p2 heqp2
          have hstep := ih hnd' _ _ _ _ hrun q
          by_cases hq : q = i.productId
          · subst hq
            rw [hstep, findProduct_setStock_self, heqp2]
            have hfindc : ((i :: rest).find? (fun j => j.productId == i.productId))
                = some i := List.find?_cons_of_pos _ (beq_self_eq_true i.productId)
            simp only [jsOrInt_zero] at hne hnz ⊢
            have hneg : (i.quantity : Int)
                - (Option.map Prod.fst (lookupLast m i.productId)).getD 0 < 0 := by omega
            simp [hnorest p2, hfindc, newQtyOf, lookQty, jsOrInt_zero, abs_of_neg hneg,
              ProductRow.mk.injEq] <;> omega
          · rw [hstep, findProduct_setStock_ne _ _ _ _ hq]
            apply option_map_congr
            intro r _
            have hpred : (i.productId == q) = false :=
              beq_eq_false_iff_ne.mpr (fun hc => hq hc.symm)
            have hfind : ((i :: rest).find? (fun j => j.productId == q))
                = rest.find? (fun j => j.productId == q) :=
              List.find?_cons_of_neg _ (by simp [hpred])
            simp only [List.any_cons, hpred, Bool.false_or, newQtyOf, hfind]

theorem triple_eta_none {α β γ : Type} (x : Option α × β × γ) (h : x.1 = none) :
    x = (none, x.2.1, x.2.2) := by
  rw [← h]

theorem noFaults_headerWrite : noFaults.headerWrite = false := rfl

theorem noFaults_itemsDelete : noFaults.itemsDelete = false := rfl

theorem noFaults_itemsWrite : noFaults.itemsWrite = false := rfl

theorem findProduct_orderItems_update (d : Db) (L : List ItemRow) (q : Uid) :
    findProduct { d with orderItems := L } q = findProduct d q := rfl

theorem buildUpdateResult_tables (od : OrderRow) (its : List OrderItem) (d : Db) :
    ((buildUpdateResult od its d).2).tables = d.tables := by
  unfold buildUpdateResult
  rw [ensureUUID_tables, ensureUUID_tables, ensureUUID_tables]

theorem findProduct_buildUpdateResult (od : OrderRow) (its : List OrderItem) (d : Db) (q : Uid) :
    findProduct (buildUpdateResult od its d).2 q = findProduct d q :=
  findProduct_eq_of_products (tables_products (buildUpdateResult_tables od its d)) q

theorem findProduct_buildItemRows (oid : Uid) (l : List OrderItem) (d : Db) (q : Uid) :
    findProduct (buildItemRows oid l d).2 q = findProduct d q :=
  findProduct_eq_of_products (tables_products (buildItemRows_tables oid l d)) q

theorem ensureOptUUID_tables (i : Option Uid) (d : Db) :
    ((ensureOptUUID i d).2).tables = d.tables := by
  cases i with
  | none => rfl
  | some c =>
    unfold ensureOptUUID
    dsimp only
    exact ensureUUID_tables c d

theorem findProduct_ensureOptUUID (i : Option Uid) (d : Db) (q : Uid) :
    findProduct (ensureOptUUID i d).2 q = findProduct d q :=
  findProduct_eq_of_products (tables_products (ensureOptUUID_tables i d)) q

theorem lookupLast_eq_find?_of_nodup {α : Type} :
    ∀ l : List (Uid × α), (l.map Prod.fst).Nodup → ∀ k,
    lookupLast l k = (l.find? (fun p => p.1 == k)).map Prod.snd := by
  intro l
  induction l with
  | nil => intro _ k; rfl
  | cons a rest ih =>
    intro h k
    rw [List.map_cons] at h
    by_cases hk : a.1 = k
    · subst hk
      have hfp : List.find? (fun p => p.1 == a.1) (a :: rest) = some a :=
        List.find?_cons_of_pos _ (beq_self_eq_true a.1)
      rw [lookupLast_cons_self a rest (List.nodup_cons.mp h).1, hfp]
      rfl
    · have hfn : List.find? (fun p => p.1 == k) (a :: rest)
          = List.find? (fun p => p.1 == k) rest :=
        List.find?_cons_of_neg _ (by simp [hk])
      rw [lookupLast_cons_ne a rest k hk, ih (List.nodup_cons.mp h).2 k, hfn]

/-- Quantity of the line for product `q` in a replacement item list (0 if
absent; for duplicate-free lists this is exactly "newQty"). -/
def qtyOfItems (l : List OrderItem) (q : Uid) : Int :=
  ((l.find? (fun i => i.productId == q)).map (fun i => i.quantity)).getD 0

/-- Quantity of the stored line for product `q` among an order's item rows
(0 if absent; for duplicate-free rows this is exactly "oldQty"). -/
def qtyOfRows (rows : List ItemRow) (q : Uid) : Int :=
  ((rows.find? (fun r => r.productId == q)).map (fun r => r.quantity)).getD 0

theorem newQtyOf_eq (l : List OrderItem) (q : Uid) : newQtyOf l q = qtyOfItems l q := by
  unfold newQtyOf qtyOfItems
  cases l.find? (fun i => i.productId == q) <;> simp [jsOrInt_zero]

theorem find?_fst_map_rows (rows : List ItemRow) (q : Uid) :
    ((rows.map (fun r => (r.productId, (jsOrInt r.quantity 0, r.id)))).find?
      (fun e => e.1 == q))
    = (rows.find? (fun r => r.productId == q)).map
        (fun r => (r.productId, (jsOrInt r.quantity 0, r.id))) := by
  induction rows with
  | nil => rfl
  | cons r rest ih =>
    by_cases h : r.productId = q
    · have h1 : List.find? (fun e => e.1 == q)
          ((r.productId, (jsOrInt r.quantity 0, r.id))
            :: rest.map (fun r => (r.productId, (jsOrInt r.quantity 0, r.id))))
          = some (r.productId, (jsOrInt r.quantity 0, r.id)) :=
        List.find?_cons_of_pos _ (by simp [h])
      have h2 : List.find? (fun r => r.productId == q) (r :: rest) = some r :=
        List.find?_cons_of_pos _ (by simp [h])
      rw [List.map_cons, h1, h2]
      rfl
    · have h1 : List.find? (fun e => e.1 == q)
          ((r.productId, (jsOrInt r.quantity 0, r.id))
            :: rest.map (fun r => (r.productId, (jsOrInt r.quantity 0, r.id))))
          = List.find? (fun e => e.1 == q)
              (rest.map (fun r => (r.productId, (jsOrInt r.quantity 0, r.id)))) :=
        List.find?_cons_of_neg _ (by simp [h])
      have h2 : List.find? (fun i => i.productId == q) (r :: rest)
          = List.find? (fun i => i.productId == q) rest :=
        List.find?_cons_of_neg _ (by simp [h])
      rw [List.map_cons, h1, h2, ih]

theorem lookQty_map_rows (rows : List ItemRow) (q : Uid)
    (hnd : (rows.map (fun r => r.productId)).Nodup) :
    lookQty (rows.map (fun r => (r.productId, (jsOrInt r.quantity 0, r.id)))) q
      = qtyOfRows rows q := by
  unfold lookQty qtyOfRows
  rw [lookupLast_eq_find?_of_nodup _ (by rw [List.map_map]; exact hnd) q,
    find?_fst_map_rows]
  cases rows.find? (fun r => r.productId == q) <;> simp [jsOrInt_zero]

theorem entryQty_map_rows (rows : List ItemRow) (q : Uid) :
    entryQty (rows.map (fun r => (r.productId, (jsOrInt r.quantity 0, r.id)))) q
      = qtyOfRows rows q := by
  unfold entryQty qtyOfRows
  rw [find?_fst_map_rows]
  cases rows.find? (fun r => r.productId == q) <;> simp [jsOrInt_zero]

theorem any_map_rows (rows : List ItemRow) (q : Uid) :
    (rows.map (fun r => (r.productId, (jsOrInt r.quantity 0, r.id)))).any (fun e => e.1 == q)
      = rows.any (fun r => r.productId == q) := by
  induction rows with
  | nil => rfl
  | cons r rest ih =>
    rw [List.map_cons, List.any_cons, List.any_cons, ih]

theorem contains_map_eq_any (l : List OrderItem) (q : Uid) :
    (l.map (fun i => i.productId)).contains q = l.any (fun i => i.productId == q) := by
  by_cases h : q ∈ l.map (fun i => i.productId)
  · have h1 : (l.map (fun i => i.productId)).contains q = true := by simpa using h
    obtain ⟨i, hi, hq⟩ := List.mem_map.mp h
    have h2 : l.any (fun i => i.productId == q) = true :=
      List.any_eq_true.mpr ⟨i, hi, by simp [hq]⟩
    rw [h1, h2]
  · have h1 : (l.map (fun i => i.productId)).contains q = false := by simpa using h
    have h2 : l.any (fun i => i.productId == q) = false := by
      apply List.any_eq_false.mpr
      intro i hi hc
      exact h (List.mem_map.mpr ⟨i, hi, beq_iff_eq.mp hc⟩)
    rw [h1, h2]

theorem qtyOfItems_eq_zero_of_any_false (l : List OrderItem) (q : Uid)
    (h : l.any (fun i => i.productId == q) = false) : qtyOfItems l q = 0 := by
  unfold qtyOfItems
  rw [List.find?_eq_none.mpr (fun i hi => by simp [List.any_eq_false.mp h i hi])]
  rfl

theorem qtyOfRows_eq_zero_of_any_false (rows : List ItemRow) (q : Uid)
    (h : rows.any (fun r => r.productId == q) = false) : qtyOfRows rows q = 0 := by
  unfold qtyOfRows
  rw [List.find?_eq_none.mpr (fun r hr => by simp [List.any_eq_false.mp h r hr])]
  rfl

theorem findProduct_orders_update (d : Db) (L : List OrderRow) (q : Uid) :
    findProduct { d with orders := L } q = findProduct d q := rfl

/-- C4: a successful `updateOrder` that replaces the (duplicate-free) item
set A of the order with the (duplicate-free) replacement set B changes
every product's stock by exactly `-(newQty - oldQty)`, where a product
missing from B counts as `newQty = 0` and a product missing from A counts
as `oldQty = 0`; products with zero delta (and all other product fields)
are untouched, and products absent from the catalog stay absent. -/
theorem C4_delta_symmetry_on_edit (id : Uid) (patch : OrderPatch) (db : Db)
    (newList : List OrderItem) (o : Order) (db' : Db)
    (hid : isValidUUID id = true)
    (hitems : patch.items = some newList)
    (hndA : ((db.orderItems.filter (fun r => r.orderId == id)).map
      (fun r => r.productId)).Nodup)
    (hndB : (newList.map (fun i => i.productId)).Nodup)
    (hrun : updateOrder noFaults id patch db = (.ok (some o), db')) :
    ∀ q, findProduct db' q = (findProduct db q).map (fun r =>
      { r with stock := r.stock
          - (qtyOfItems newList q
             - qtyOfRows (db.orderItems.filter (fun r => r.orderId == id)) q) }) := by
  intro q
  have hndM : (((db.orderItems.filter (fun r => r.orderId == id)).map
      (fun r => (r.productId, (jsOrInt r.quantity 0, r.id)))).map Prod.fst).Nodup := by
    rw [List.map_map]
    exact hndA
  unfold updateOrder at hrun
  rw [ensureUUID_valid _ _ hid] at hrun
  dsimp only at hrun
  split at hrun
  · simp at hrun
  · simp only [noFaults_headerWrite, Bool.false_eq_true, if_false] at hrun
    split at hrun
    · simp at hrun
    · rw [hitems] at hrun
      dsimp only at hrun
      rw [mapEntries_of_nodup _ hndM] at hrun
      split at hrun
      · simp at hrun
      · rename_i heq6
        split at hrun
        · simp at hrun
        · rename_i heq7
          simp only [noFaults_itemsDelete, noFaults_itemsWrite, Bool.false_eq_true,
            if_false] at hrun
          simp only [Prod.mk.injEq, Except.ok.injEq, Option.some.injEq] at hrun
          obtain ⟨-, hdb⟩ := hrun
          subst hdb
          rw [findProduct_buildUpdateResult, findProduct_orderItems_update,
            findProduct_buildItemRows, findProduct_orderItems_update]
          have h7full := triple_eta_none _ heq7
          rw [itemLoop_stock_spec _ newList hndB _ _ _ _ h7full q]
          have h6full := triple_eta_none _ heq6
          rw [removedLoop_stock_spec _ _ hndM _ _ _ _ h6full q]
          rw [findProduct_orders_update, findProduct_ensureOptUUID,
            findProduct_ensureOptUUID, Option.map_map]
          apply option_map_congr
          intro r _
          by_cases hB : newList.any (fun i => i.productId == q) = true
          · have hcont : ((newList.map (fun i => i.productId)).contains q) = true := by
              rw [contains_map_eq_any]
              exact hB
            simp only [Function.comp, any_map_rows, hcont, Bool.not_true, Bool.and_false,
              Bool.false_eq_true, if_false, hB, if_true, newQtyOf_eq,
              lookQty_map_rows _ _ hndA]
          · have hB' : newList.any (fun i => i.productId == q) = false := by
              cases hx : newList.any (fun i => i.productId == q) with
              | false => rfl
              | true => exact absurd hx hB
            have hcont : ((newList.map (fun i => i.productId)).contains q) = false := by
              rw [contains_map_eq_any]
              exact hB'
            have h0 := qtyOfItems_eq_zero_of_any_false newList q hB'
            by_cases hA : (db.orderItems.filter (fun r => r.orderId == id)).any
                (fun r => r.productId == q) = true
            · simp only [Function.comp, any_map_rows, hA, hcont, Bool.not_false,
                Bool.and_true, if_true, hB', Bool.false_eq_true, if_false,
                entryQty_map_rows]
              apply prodRow_stock_congr
              omega
            · have hA' : (db.orderItems.filter (fun r => r.orderId == id)).any
                  (fun r => r.productId == q) = false := by
                cases hx : (db.orderItems.filter (fun r => r.orderId == id)).any
                    (fun r => r.productId == q) with
                | false => rfl
                | true => exact absurd hx hA
              have h0' := qtyOfRows_eq_zero_of_any_false _ q hA'
              simp only [Function.comp, any_map_rows, hA', hcont, Bool.false_and,
                Bool.false_eq_true, if_false, hB']
              symm
              apply prodRow_eq_of_stock
              omega

/-- The C4 scenario patch: raise the single 3 × `P` line to 5 × `P`. -/
def c4Patch : OrderPatch := ⟨none, none, none, none, some 250, some [⟨W.I1, W.P, "Phone", 5, 50⟩]⟩

/-- C4 witness: editing order `W.O` from 3 × `P` to 5 × `P` over `W.db1`;
instantiating the theorem at product `P` shows its stock row went from 5
to 5 − (5 − 3) = 3 with all other fields intact. -/
theorem C4_delta_symmetry_on_edit_witness :
    findProduct (updateOrder noFaults W.O c4Patch W.db1).2 W.P
      = (findProduct W.db1 W.P).map (fun r =>
        { r with stock := r.stock
            - (qtyOfItems [⟨W.I1, W.P, "Phone", 5, 50⟩] W.P
               - qtyOfRows (W.db1.orderItems.filter (fun r => r.orderId == W.O)) W.P) }) :=
  C4_delta_symmetry_on_edit W.O c4Patch W.db1 [⟨W.I1, W.P, "Phone", 5, 50⟩]
    ⟨W.O, W.C, "Alice", W.E, "Eve", [⟨W.I1, W.P, "Phone", 5, 50⟩], 250, 1⟩
    (updateOrder noFaults W.O c4Patch W.db1).2
    rfl rfl (by decide) (by decide) rfl W.P

/-! ## C3 -/

theorem calcFold_aux :
    ∀ (items : List FormItem) (acc : Rat), (∀ i ∈ items, i.productId.isSome = true) →
    items.foldl (fun sum item =>
      match item.productId with
      | none => sum
      | some _ => sum + jsOrRat item.price 0 * ((jsOrInt item.quantity 1 : Int) : Rat)) acc
    = acc + (items.map (fun i => jsOrRat i.price 0 * ((jsOrInt i.quantity 1 : Int) : Rat))).sum := by
  intro items
  induction items with
  | nil => intro acc _; simp
  | cons i rest ih =>
    intro acc hall
    obtain ⟨p, hp⟩ := Option.isSome_iff_exists.mp (hall i (List.mem_cons_self i rest))
    rw [List.foldl_cons]
    rw [ih _ (fun j hj => hall j (List.mem_cons_of_mem i hj))]
    rw [hp]
    dsimp only
    rw [List.map_cons, List.sum_cons]
    ring

/-- `calculateTotal` on a fully selected item list is the sum of
`(price || 0) * (quantity || 1)` over all lines. -/
theorem calculateTotal_eq_sum (items : List FormItem)
    (hall : ∀ i ∈ items, i.productId.isSome = true) :
    calculateTotal items
      = (items.map (fun i => jsOrRat i.price 0 * ((jsOrInt i.quantity 1 : Int) : Rat))).sum := by
  unfold calculateTotal
  rw [calcFold_aux items 0 hall]
  simp

theorem buildItemRows_orderId :
    ∀ (l : List OrderItem) (oid : Uid) (db : Db) (r : ItemRow),
    r ∈ (buildItemRows oid l db).1 → r.orderId = oid := by
  intro l
  induction l with
  | nil => intro oid db r hr; simp [buildItemRows] at hr
  | cons i rest ih =>
    intro oid db r hr
    unfold buildItemRows at hr
    dsimp only at hr
    rcases List.mem_cons.mp hr with rfl | hr'
    · rfl
    · exact ih oid _ r hr'

theorem buildItemRows_values :
    ∀ (l : List OrderItem) (oid : Uid) (db : Db),
    ((buildItemRows oid l db).1).map (fun r => r.price * (r.quantity : Rat))
    = l.map (fun i => jsOrRat i.price 0 * ((jsOrInt i.quantity 1 : Int) : Rat)) := by
  intro l
  induction l with
  | nil => intro oid db; rfl
  | cons i rest ih =>
    intro oid db
    unfold buildItemRows
    dsimp only
    rw [List.map_cons, List.map_cons, ih]

theorem nonProducts_customers {a b : Db} (h : a.nonProducts = b.nonProducts) :
    a.customers = b.customers := by
  simp only [Db.nonProducts, Prod.mk.injEq] at h
  exact h.1

theorem tables_orders {a b : Db} (h : a.tables = b.tables) : a.orders = b.orders := by
  simp only [Db.tables, Prod.mk.injEq] at h
  exact h.2.2.1

theorem tables_orderItems {a b : Db} (h : a.tables = b.tables) : a.orderItems = b.orderItems := by
  simp only [Db.tables, Prod.mk.injEq] at h
  exact h.2.2.2.1

theorem createStockLoop_orders_eq (F : Faults) (l : List OrderItem) (k : Nat) (db : Db) :
    ((createStockLoop F l k db).2).orders = db.orders :=
  nonProducts_orders (createStockLoop_nonProducts F l k db)

theorem createStockLoop_orderItems_eq (F : Faults) (l : List OrderItem) (k : Nat) (db : Db) :
    ((createStockLoop F l k db).2).orderItems = db.orderItems :=
  nonProducts_orderItems (createStockLoop_nonProducts F l k db)

theorem buildItemRows_orders_eq (oid : Uid) (l : List OrderItem) (db : Db) :
    ((buildItemRows oid l db).2).orders = db.orders :=
  tables_orders (buildItemRows_tables oid l db)

theorem buildItemRows_orderItems_eq (oid : Uid) (l : List OrderItem) (db : Db) :
    ((buildItemRows oid l db).2).orderItems = db.orderItems :=
  tables_orderItems (buildItemRows_tables oid l db)

theorem ensureUUID_orders_eq (i : Uid) (db : Db) :
    ((ensureUUID i db).2).orders = db.orders :=
  tables_orders (ensureUUID_tables i db)

theorem ensureUUID_orderItems_eq (i : Uid) (db : Db) :
    ((ensureUUID i db).2).orderItems = db.orderItems :=
  tables_orderItems (ensureUUID_tables i db)

theorem readOrderRow_orders_eq (row : OrderRow) (db : Db) :
    ((readOrderRow row db).2).orders = db.orders :=
  tables_orders (readOrderRow_tables row db)

theorem readOrderRow_orderItems_eq (row : OrderRow) (db : Db) :
    ((readOrderRow row db).2).orderItems = db.orderItems :=
  tables_orderItems (readOrderRow_tables row db)

theorem readOrderRow_id (row : OrderRow) (db : Db) (h : isValidUUID row.id = true) :
    ((readOrderRow row db).1).id = row.id := by
  unfold readOrderRow
  dsimp only
  rw [ensureUUID_valid _ _ h]

theorem uuidv4_fst (db : Db) : (uuidv4 db).1 = Uid.wellFormed db.gen := rfl

theorem uuidv4_orders_eq (db : Db) : ((uuidv4 db).2).orders = db.orders := rfl

theorem uuidv4_orderItems_eq (db : Db) : ((uuidv4 db).2).orderItems = db.orderItems := rfl

theorem filter_buildItemRows_self (oid : Uid) (l : List OrderItem) (d : Db) :
    ((buildItemRows oid l d).1).filter (fun r => r.orderId == oid)
      = (buildItemRows oid l d).1 := by
  apply List.filter_eq_self.mpr
  intro r hr
  rw [buildItemRows_orderId _ _ _ r hr]
  exact beq_self_eq_true _

theorem ensureOptUUID_orders_eq (i : Option Uid) (d : Db) :
    ((ensureOptUUID i d).2).orders = d.orders :=
  tables_orders (ensureOptUUID_tables i d)

theorem ensureOptUUID_orderItems_eq (i : Option Uid) (d : Db) :
    ((ensureOptUUID i d).2).orderItems = d.orderItems :=
  tables_orderItems (ensureOptUUID_tables i d)

theorem buildUpdateResult_orders_eq (od : OrderRow) (its : List OrderItem) (d : Db) :
    ((buildUpdateResult od its d).2).orders = d.orders :=
  tables_orders (buildUpdateResult_tables od its d)

theorem buildUpdateResult_orderItems_eq (od : OrderRow) (its : List OrderItem) (d : Db) :
    ((buildUpdateResult od its d).2).orderItems = d.orderItems :=
  tables_orderItems (buildUpdateResult_tables od its d)

theorem filter_not_filter {α : Type} (p : α → Bool) (l : List α) :
    (l.filter (fun x => !(p x))).filter p = [] := by
  rw [List.filter_eq_nil_iff]
  intro a ha
  have hnp := List.of_mem_filter ha
  simp only [Bool.not_eq_true'] at hnp
  simp [hnp]

/-- The header row `updateOrder`'s second lookup finds carries the patched
total: every row of the mapped list satisfying the id predicate went
through `applyHeaderPatch` with `some t` as total. -/
theorem patched_header_total (uuid : Uid) (cid : Option Uid) (cn : Option String)
    (eid : Option Uid) (en : Option String) (t : Rat) (l : List OrderRow) (row : OrderRow)
    (h : (l.map (fun r =>
        if r.id = uuid then applyHeaderPatch cid cn eid en (some t) r else r)).find?
        (fun r => r.id == uuid) = some row) :
    row.total = t := by
  have hpred := List.find?_some h
  have hmem := List.mem_of_find?_eq_some h
  rw [List.mem_map] at hmem
  obtain ⟨r, hrm, hr⟩ := hmem
  by_cases hc : r.id = uuid
  · rw [if_pos hc] at hr
    subst hr
    rfl
  · rw [if_neg hc] at hr
    subst hr
    exact absurd (by simpa using hpred) hc

/-- The stored rows of a successful non-empty `createOrder`: the header
found under the returned order's id carries the caller's total, and the
item rows filed under the new order id are exactly the built rows, whose
`price × quantity` values are the submitted ones. -/
theorem createOrder_total_spec (F : Faults) (ord : NewOrder) (db : Db) (o : Order) (db' : Db)
    (hfresh : GenFresh db) (hne : ord.items ≠ [])
    (hrun : createOrder F ord db = (.ok (some o), db')) :
    ∃ row, db'.orders.find? (fun r => r.id == o.id) = some row ∧
      row.total = jsOrRat ord.total 0 ∧
      ((db'.orderItems.filter (fun r => r.orderId == row.id)).map
        (fun r => r.price * (r.quantity : Rat)))
      = ord.items.map (fun i => jsOrRat i.price 0 * ((jsOrInt i.quantity 1 : Int) : Rat)) := by
  have hisEmpty : ord.items.isEmpty = false := by
    cases hx : ord.items with
    | nil => exact absurd hx hne
    | cons a l => rfl
  have hfind0 : db.orders.find? (fun r => r.id == Uid.wellFormed db.gen) = none :=
    find?_eq_none_of_forall_ne _ _ _ (fun r hr => ((hfresh db.gen (Nat.le_refl _)).2.2.1) r hr)
  unfold createOrder at hrun
  split at hrun
  · simp at hrun
  · try dsimp only at hrun
    split at hrun
    · simp at hrun
    · simp only [hisEmpty, Bool.false_eq_true, if_false] at hrun
      split at hrun
      · simp at hrun
      · split at hrun
        · simp at hrun
        · unfold fetchComplete at hrun
          simp only [uuidv4_fst] at hrun
          rw [createStockLoop_orders_eq] at hrun
          try dsimp only at hrun
          rw [buildItemRows_orders_eq] at hrun
          try dsimp only at hrun
          rw [ensureUUID_orders_eq, ensureUUID_orders_eq, uuidv4_orders_eq] at hrun
          rw [List.find?_append, hfind0, Option.none_or] at hrun
          split at hrun
          · rename_i heqn
            rw [List.find?_eq_none] at heqn
            exact absurd (beq_self_eq_true (Uid.wellFormed db.gen))
              (heqn _ (List.mem_singleton_self _))
          · rename_i row heqs
            have hrow : row ∈ _ := List.mem_of_find?_eq_some heqs
            rw [List.mem_singleton] at hrow
            subst hrow
            simp only [Prod.mk.injEq, Except.ok.injEq, Option.some.injEq] at hrun
            obtain ⟨ho, hdb⟩ := hrun
            subst ho
            subst hdb
            set hdr : OrderRow :=
              ⟨Uid.wellFormed db.gen, (ensureUUID ord.customerId (uuidv4 db).2).1,
                ord.customerName,
                (ensureUUID ord.employeeId (ensureUUID ord.customerId (uuidv4 db).2).2).1,
                ord.employeeName, jsOrRat ord.total 0,
                (ensureUUID ord.employeeId (ensureUUID ord.customerId (uuidv4 db).2).2).2.time⟩
            have hid : hdr.id = Uid.wellFormed db.gen := rfl
            refine ⟨hdr, ?_, rfl, ?_⟩
            · rw [readOrderRow_orders_eq, createStockLoop_orders_eq]
              try dsimp only
              rw [readOrderRow_id hdr _ rfl, hid]
              rw [List.find?_append, hfind0, Option.none_or]
              exact List.find?_cons_of_pos _ (beq_self_eq_true (Uid.wellFormed db.gen))
            · rw [hid]
              rw [readOrderRow_orderItems_eq, createStockLoop_orderItems_eq]
              try dsimp only
              rw [buildItemRows_orderItems_eq]
              try dsimp only
              rw [ensureUUID_orderItems_eq, ensureUUID_orderItems_eq, uuidv4_orderItems_eq]
              rw [List.filter_append]
              have hold : db.orderItems.filter
                  (fun r => r.orderId == Uid.wellFormed db.gen) = [] := by
                rw [List.filter_eq_nil_iff]
                intro r hr
                simp only [Bool.not_eq_true]
                exact beq_eq_false_iff_ne.mpr
                  (fun hc => ((hfresh db.gen (Nat.le_refl _)).2.2.2 r hr) hc)
              rw [hold, List.nil_append, filter_buildItemRows_self, buildItemRows_values]

/-- The stored rows of a successful `updateOrder` carrying a full item
list and total: the header row found under the (valid) order id carries
the patched total, and the item rows filed under the order id are exactly
the re-inserted ones, whose `price × quantity` values are the submitted
ones.  `F.itemsDelete = false` keeps the unchecked delete of the old rows
effective. -/
theorem updateOrder_total_spec (F : Faults) (id : Uid) (patch : OrderPatch)
    (items : List OrderItem) (t : Rat) (db : Db) (o : Order) (db' : Db)
    (hid : isValidUUID id = true)
    (hdel : F.itemsDelete = false)
    (hitems : patch.items = some items)
    (htot : patch.total = some t)
    (hrun : updateOrder F id patch db = (.ok (some o), db')) :
    ∃ row, db'.orders.find? (fun r => r.id == id) = some row ∧
      row.total = t ∧
      ((db'.orderItems.filter (fun r => r.orderId == id)).map
        (fun r => r.price * (r.quantity : Rat)))
      = items.map (fun i => jsOrRat i.price 0 * ((jsOrInt i.quantity 1 : Int) : Rat)) := by
  unfold updateOrder at hrun
  rw [ensureUUID_valid _ _ hid, hitems, htot] at hrun
  dsimp only at hrun
  split at hrun
  · simp at hrun
  · try dsimp only at hrun
    split at hrun
    · simp at hrun
    · split at hrun
      · simp at hrun
      · rename_i orderData heq4
        try dsimp only at hrun
        split at hrun
        · simp at hrun
        · split at hrun
          · simp at hrun
          · simp only [hdel, Bool.false_eq_true, if_false] at hrun
            split at hrun
            · simp at hrun
            · simp only [Prod.mk.injEq, Except.ok.injEq, Option.some.injEq] at hrun
              obtain ⟨ho, hdb⟩ := hrun
              subst ho
              subst hdb
              refine ⟨orderData, ?_, ?_, ?_⟩
              · rw [buildUpdateResult_orders_eq]
                try dsimp only
                rw [buildItemRows_orders_eq]
                try dsimp only
                rw [itemLoop_orders, removedLoop_orders]
                exact heq4
              · exact patched_header_total _ _ _ _ _ _ _ _ heq4
              · rw [buildUpdateResult_orderItems_eq]
                try dsimp only
                rw [List.filter_append]
                rw [buildItemRows_orderItems_eq]
                try dsimp only
                rw [itemLoop_orderItems, removedLoop_orderItems]
                try dsimp only
                rw [ensureOptUUID_orderItems_eq, ensureOptUUID_orderItems_eq]
                rw [filter_not_filter, List.nil_append]
                rw [filter_buildItemRows_self, buildItemRows_values]

/-- `submitItem`'s `price || 0` / `quantity || 1` fallbacks are idempotent
under the stored-row value map. -/
theorem map_submitItem_values (items : List FormItem) :
    (items.map submitItem).map
        (fun i => jsOrRat i.price 0 * ((jsOrInt i.quantity 1 : Int) : Rat))
      = items.map (fun i => jsOrRat i.price 0 * ((jsOrInt i.quantity 1 : Int) : Rat)) := by
  rw [List.map_map]
  apply List.map_congr_left
  intro i _
  dsimp only [Function.comp, submitItem]
  rw [jsOrRat_zero, jsOrInt_one_idem]

/-- C3: for every order persisted by a successful create (through
OrderNew's `handleSubmit`) or update (through OrderEdit's
`confirmUpdate`), the stored header total equals the sum of
`price × quantity` over the order's persisted item rows, computed at
write time.  The service functions trust the caller's total; the pages
compute it with `calculateTotal`, whose `(price || 0) * (quantity || 1)`
terms are exactly the fallbacks the stored item rows receive. -/
theorem C3_total_equals_sum_of_persisted_items
    (F : Faults) (customers : List Customer) (employees : List Employee)
    (cid eid : Option Uid) (items : List FormItem) (oid : Uid)
    (db db' : Db) (o : Order)
    (hoid : isValidUUID oid = true) (hdel : F.itemsDelete = false)
    (hfresh : GenFresh db) :
    (handleSubmit F customers employees cid eid items db
        = (.serviceResult (.ok (some o)), db') →
      ∃ row, db'.orders.find? (fun r => r.id == o.id) = some row ∧
        row.total = ((db'.orderItems.filter (fun r => r.orderId == row.id)).map
          (fun r => r.price * (r.quantity : Rat))).sum) ∧
    (confirmUpdate F customers employees oid cid eid items db
        = (.serviceResult (.ok (some o)), db') →
      ∃ row, db'.orders.find? (fun r => r.id == oid) = some row ∧
        row.total = ((db'.orderItems.filter (fun r => r.orderId == oid)).map
          (fun r => r.price * (r.quantity : Rat))).sum) := by
  constructor
  · intro hrun
    unfold handleSubmit at hrun
    split at hrun
    · simp at hrun
    · split at hrun
      · simp at hrun
      · split at hrun
        · simp at hrun
        · rename_i h1 h2 h3
          have hsel : ∀ i ∈ items, i.productId.isSome = true := by
            intro i hi
            cases hpi : i.productId with
            | some c => rfl
            | none =>
              have hany : items.any (fun j => j.productId.isNone) = true :=
                List.any_eq_true.mpr ⟨i, hi, by rw [hpi]; rfl⟩
              exact absurd (by rw [hany, Bool.or_true]) h3
          have hne : items.map submitItem ≠ [] := by
            cases items with
            | nil => exact absurd (by simp) h3
            | cons a l => simp
          obtain ⟨c, rfl⟩ : ∃ x, cid = some x := by
            cases cid with
            | none => exact absurd rfl h1
            | some x => exact ⟨x, rfl⟩
          obtain ⟨e, rfl⟩ : ∃ x, eid = some x := by
            cases eid with
            | none => exact absurd rfl h2
            | some x => exact ⟨x, rfl⟩
          try dsimp only at hrun
          split at hrun
          · rename_i customer employee hfc hfe
            simp only [Prod.mk.injEq, SubmitOutcome.serviceResult.injEq] at hrun
            obtain ⟨hres, hdb⟩ := hrun
            have hcr : createOrder F
                ⟨c, customer.name, e, employee.name, items.map submitItem,
                  calculateTotal items⟩ db = (.ok (some o), db') := by
              rw [← hres, ← hdb]
            obtain ⟨row, hfind, htotal, hvals⟩ :=
              createOrder_total_spec F _ db o db' hfresh hne hcr
            refine ⟨row, hfind, ?_⟩
            rw [hvals, htotal]
            dsimp only
            rw [jsOrRat_zero, map_submitItem_values]
            exact calculateTotal_eq_sum items hsel
          all_goals simp at hrun
  · intro hrun
    unfold confirmUpdate at hrun
    split at hrun
    · simp at hrun
    · split at hrun
      · simp at hrun
      · split at hrun
        · simp at hrun
        · rename_i h1 h2 h3
          have hsel : ∀ i ∈ items, i.productId.isSome = true := by
            intro i hi
            cases hpi : i.productId with
            | some c => rfl
            | none =>
              have hany : items.any (fun j => j.productId.isNone) = true :=
                List.any_eq_true.mpr ⟨i, hi, by rw [hpi]; rfl⟩
              exact absurd (by rw [hany, Bool.or_true]) h3
          obtain ⟨c, rfl⟩ : ∃ x, cid = some x := by
            cases cid with
            | none => exact absurd rfl h1
            | some x => exact ⟨x, rfl⟩
          obtain ⟨e, rfl⟩ : ∃ x, eid = some x := by
            cases eid with
            | none => exact absurd rfl h2
            | some x => exact ⟨x, rfl⟩
          try dsimp only at hrun
          split at hrun
          · rename_i customer employee hfc hfe
            simp only [Prod.mk.injEq, SubmitOutcome.serviceResult.injEq] at hrun
            obtain ⟨hres, hdb⟩ := hrun
            have hcr : updateOrder F oid
                ⟨some c, some customer.name, some e, some employee.name,
                  some (calculateTotal items), some (items.map submitItem)⟩ db
                = (.ok (some o), db') := by
              rw [← hres, ← hdb]
            obtain ⟨row, hfind, htotal, hvals⟩ :=
              updateOrder_total_spec F oid _ (items.map submitItem) (calculateTotal items)
                db o db' hoid hdel rfl rfl hcr
            refine ⟨row, hfind, ?_⟩
            rw [hvals, htotal, map_submitItem_values]
            exact calculateTotal_eq_sum items hsel
          all_goals simp at hrun

/-- The one-order base state also has a fresh generator: its counter (100)
is above every stored id. -/
theorem db1_genFresh : GenFresh W.db1 := by
  intro n hn
  have h100 : 100 ≤ n := hn
  refine ⟨?_, ?_, ?_, ?_⟩
  · intro r hr
    have hv : r = W.custC := by simpa [W.db1] using hr
    subst hv
    exact wf_ne_of_ne 6 n (by omega)
  · intro r hr
    have hv : r = W.prodP ∨ r = W.prodQ := by simpa [W.db1] using hr
    rcases hv with rfl | rfl
    · exact wf_ne_of_ne 5 n (by omega)
    · exact wf_ne_of_ne 11 n (by omega)
  · intro r hr
    have hv : r = (⟨W.O, W.C, "Alice", W.E, "Eve", 150, 1⟩ : OrderRow) := by
      simpa [W.db1] using hr
    subst hv
    exact wf_ne_of_ne 8 n (by omega)
  · intro r hr
    have hv : r = (⟨W.I1, W.O, W.P, "Phone", 3, 50⟩ : ItemRow) := by
      simpa [W.db1] using hr
    subst hv
    exact wf_ne_of_ne 8 n (by omega)

/-- The C3 scenario: client-side mirrors of the stored customer and an
employee, a fresh one-line order form (2 × 50), and an edit raising the
existing order to 5 × 50. -/
def c3Cust : Customer := ⟨W.C, "Alice", "alice@shop", "555", "Main St"⟩

def c3Emp : Employee := ⟨W.E, "Eve"⟩

def c3NewItem : FormItem := ⟨Uid.wellFormed 1, some W.P, "Phone", 2, 50⟩

def c3EditItem : FormItem := ⟨W.I1, some W.P, "Phone", 5, 50⟩

/-- The two concrete C3 runs and the extractor for their returned order
(fallback for the impossible branches). -/
def c3CreateRun : SubmitOutcome × Db :=
  handleSubmit noFaults [c3Cust] [c3Emp] (some W.C) (some W.E) [c3NewItem] W.db1

def c3UpdateRun : SubmitOutcome × Db :=
  confirmUpdate noFaults [c3Cust] [c3Emp] W.O (some W.C) (some W.E) [c3EditItem] W.db1

def outcomeOrder (s : SubmitOutcome) : Order :=
  match s with
  | .serviceResult (.ok (some o)) => o
  | _ => ⟨Uid.malformed 0, Uid.malformed 0, "", Uid.malformed 0, "", [], 0, 0⟩

/-- C3 witness: both paths run on the concrete store — the created order's
header (total 100 = 2 × 50) and the edited order's header (total
250 = 5 × 50) each carry exactly the sum over their stored item rows. -/
theorem C3_total_equals_sum_of_persisted_items_witness :
    isValidUUID W.O = true ∧ noFaults.itemsDelete = false ∧ GenFresh W.db1 ∧
    (∃ row, (c3CreateRun.2).orders.find?
        (fun r => r.id == Uid.wellFormed 100) = some row ∧
      row.total = (((c3CreateRun.2).orderItems.filter (fun r => r.orderId == row.id)).map
        (fun r => r.price * (r.quantity : Rat))).sum) ∧
    (∃ row, (c3UpdateRun.2).orders.find? (fun r => r.id == W.O) = some row ∧
      row.total = (((c3UpdateRun.2).orderItems.filter (fun r => r.orderId == W.O)).map
        (fun r => r.price * (r.quantity : Rat))).sum) :=
  ⟨rfl, rfl, db1_genFresh,
    (C3_total_equals_sum_of_persisted_items noFaults [c3Cust] [c3Emp]
      (some W.C) (some W.E) [c3NewItem] W.O W.db1 c3CreateRun.2
      (outcomeOrder c3CreateRun.1) rfl rfl db1_genFresh).1 rfl,
    (C3_total_equals_sum_of_persisted_items noFaults [c3Cust] [c3Emp]
      (some W.C) (some W.E) [c3EditItem] W.O W.db1 c3UpdateRun.2
      (outcomeOrder c3UpdateRun.1) rfl rfl db1_genFresh).2 rfl⟩
